import Mathlib

/-!
Verification of the analysis and fusion pipeline of the repo-to-cat service.

The Python sources under `app/services`, `app/providers`, `app/langgraph` and
`config/mappings.py` are embedded shallowly: numeric values are modelled as
exact rationals (`ℚ`), Python strings as `String`/`List Char`, fallible code as
`Except`, and the external collaborators (GitHub, the LLM provider) as explicit
function parameters.
-/

namespace RepoToCat

/-! ### Python rounding, modelled on exact rationals

`round(x, n)` in Python rounds half to even.  We model float values as exact
rationals, so `pyRound` is round-half-to-even on `ℚ`. -/

/-- Round a rational to the nearest integer, ties to even (Python `round`). -/
def roundHalfEven (q : ℚ) : ℤ :=
  let f := ⌊q⌋
  let r := q - (f : ℚ)
  if r < 1/2 then f
  else if 1/2 < r then f + 1
  else if Even f then f else f + 1

/-- Python `round(x, n)` on exact rationals. -/
def pyRound (q : ℚ) (n : ℕ) : ℚ :=
  (roundHalfEven (q * 10 ^ n) : ℚ) / 10 ^ n

lemma roundHalfEven_nonneg {q : ℚ} (h : 0 ≤ q) : 0 ≤ roundHalfEven q := by
  unfold roundHalfEven
  have hf : (0 : ℤ) ≤ ⌊q⌋ := Int.floor_nonneg.mpr h
  dsimp only
  split
  · exact hf
  · split
    · omega
    · split
      · exact hf
      · omega

lemma roundHalfEven_le {q : ℚ} {c : ℤ} (h : q ≤ (c : ℚ)) : roundHalfEven q ≤ c := by
  unfold roundHalfEven
  have hf : ⌊q⌋ ≤ c := by
    have := Int.floor_le_floor h
    simpa using this
  dsimp only
  split
  · exact hf
  · rename_i h1
    have hlt : ⌊q⌋ < c := by
      rcases lt_or_eq_of_le hf with h2 | h2
      · exact h2
      · exfalso
        have hge : (1 : ℚ)/2 ≤ q - (⌊q⌋ : ℚ) := le_of_not_lt h1
        have : (c : ℚ) + 1/2 ≤ q := by
          rw [← h2]
          linarith
        have : (c : ℚ) < q := by linarith
        exact absurd h (not_le.mpr this)
    split
    · omega
    · split
      · omega
      · omega

lemma roundHalfEven_intCast (z : ℤ) : roundHalfEven (z : ℚ) = z := by
  unfold roundHalfEven
  simp [Int.floor_intCast]

lemma pyRound_nonneg {q : ℚ} (n : ℕ) (h : 0 ≤ q) : 0 ≤ pyRound q n := by
  unfold pyRound
  have h1 : 0 ≤ q * 10 ^ n := by positivity
  have h2 := roundHalfEven_nonneg h1
  have h3 : (0 : ℚ) ≤ (roundHalfEven (q * 10 ^ n) : ℚ) := by exact_mod_cast h2
  positivity

lemma pyRound_le {q : ℚ} {c : ℤ} (n : ℕ) (h : q ≤ (c : ℚ)) : pyRound q n ≤ (c : ℚ) := by
  unfold pyRound
  have h1 : q * 10 ^ n ≤ ((c * 10 ^ n : ℤ) : ℚ) := by
    push_cast
    have hp : (0 : ℚ) ≤ 10 ^ n := by positivity
    nlinarith
  have h2 := roundHalfEven_le h1
  have h3 : (roundHalfEven (q * 10 ^ n) : ℚ) ≤ ((c * 10 ^ n : ℤ) : ℚ) := by exact_mod_cast h2
  have hp : (0 : ℚ) < 10 ^ n := by positivity
  rw [div_le_iff hp]
  push_cast at h3 ⊢
  linarith

lemma pyRound_natCast (m : ℕ) (n : ℕ) : pyRound (m : ℚ) n = (m : ℚ) := by
  unfold pyRound
  have h1 : (m : ℚ) * 10 ^ n = (((m : ℤ) * 10 ^ n : ℤ) : ℚ) := by push_cast; ring
  rw [h1, roundHalfEven_intCast]
  have hp : (0 : ℚ) ≠ 10 ^ n := by positivity
  push_cast
  field_simp

/-! ### Score fusion (`AnalysisService.analyze_code_files`, step 3)

`final_score = (heuristics_score * 0.3) + (llm_score * 0.7)`, then the returned
`AnalysisResult.code_quality_score` is `round(final_score, 1)`. -/

/-- Weighted fusion of the heuristic score (30%) and the LLM score (70%),
rounded to one decimal, from `AnalysisService.analyze_code_files`. -/
def fuseScores (heuristicScore llmScore : ℚ) : ℚ :=
  pyRound (heuristicScore * (3/10) + llmScore * (7/10)) 1

lemma fuseScores_nonneg {h l : ℚ} (hh : 0 ≤ h) (hl : 0 ≤ l) : 0 ≤ fuseScores h l := by
  unfold fuseScores
  apply pyRound_nonneg
  nlinarith

lemma fuseScores_le_ten {h l : ℚ} (hh : h ≤ 10) (hl : l ≤ 10) : fuseScores h l ≤ 10 := by
  unfold fuseScores
  have := pyRound_le (q := h * (3/10) + l * (7/10)) (c := 10) 1 (by push_cast; nlinarith)
  simpa using this

/-! ### Heuristic metrics record and score normalization
(`AnalysisService._normalize_heuristics_to_10_scale`) -/

/-- The aggregated heuristic metrics dictionary returned by
`AnalysisService.calculate_code_quality_score`. -/
structure HeuristicMetrics where
  line_length_avg : ℚ
  line_length_max : ℚ
  lines_too_long_pct : ℚ
  function_length_avg : ℚ
  function_length_max : ℚ
  function_count : ℕ
  nesting_depth_avg : ℚ
  nesting_depth_max : ℚ
  comment_ratio : ℚ
  has_tests : Bool
  has_type_hints : Bool
  complexity_avg : ℚ
  complexity_max : ℚ
  complexity_total : ℕ
deriving Repr, DecidableEq

/-- `AnalysisService._normalize_heuristics_to_10_scale`: additive rubric,
summed as a float, then `min(round(score, 1), 10.0)`. -/
def normalizeHeuristics (m : HeuristicMetrics) : ℚ :=
  let s1 : ℚ := if m.line_length_avg < 100 then 2
    else if m.line_length_avg < 120 then 1 else 0
  let s2 : ℚ := if m.function_length_avg = 0 then 1
    else if m.function_length_avg < 30 then 2
    else if m.function_length_avg < 50 then 1 else 0
  let s3 : ℚ := if m.nesting_depth_avg < 3 then 2
    else if m.nesting_depth_avg < 4 then 1 else 0
  let s4 : ℚ := if 1/10 < m.comment_ratio then 1 else 0
  let s5 : ℚ := if m.has_type_hints then 1 else 0
  let s6 : ℚ := if m.complexity_avg = 0 then 2
    else if m.complexity_avg < 5 then 2
    else if m.complexity_avg < 8 then 1 else 0
  let s7 : ℚ := if m.has_tests then 1 else 0
  min (pyRound (s1 + s2 + s3 + s4 + s5 + s6 + s7) 1) 10

/-- The raw point sum of the normalization rubric, before the cap,
as a natural number (the rubric only ever awards whole points). -/
def rawRubricPoints (m : HeuristicMetrics) : ℕ :=
  (if m.line_length_avg < 100 then 2
    else if m.line_length_avg < 120 then 1 else 0) +
  (if m.function_length_avg = 0 then 1
    else if m.function_length_avg < 30 then 2
    else if m.function_length_avg < 50 then 1 else 0) +
  (if m.nesting_depth_avg < 3 then 2
    else if m.nesting_depth_avg < 4 then 1 else 0) +
  (if 1/10 < m.comment_ratio then 1 else 0) +
  (if m.has_type_hints then 1 else 0) +
  (if m.complexity_avg = 0 then 2
    else if m.complexity_avg < 5 then 2
    else if m.complexity_avg < 8 then 1 else 0) +
  (if m.has_tests then 1 else 0)

lemma normalizeHeuristics_eq_min (m : HeuristicMetrics) :
    normalizeHeuristics m = min ((rawRubricPoints m : ℚ)) 10 := by
  unfold normalizeHeuristics rawRubricPoints
  dsimp only
  have e1 : (if m.line_length_avg < 100 then (2 : ℚ)
        else if m.line_length_avg < 120 then 1 else 0)
      = ((if m.line_length_avg < 100 then 2
        else if m.line_length_avg < 120 then 1 else 0 : ℕ) : ℚ) := by
    split_ifs <;> norm_num
  have e2 : (if m.function_length_avg = 0 then (1 : ℚ)
        else if m.function_length_avg < 30 then 2
        else if m.function_length_avg < 50 then 1 else 0)
      = ((if m.function_length_avg = 0 then 1
        else if m.function_length_avg < 30 then 2
        else if m.function_length_avg < 50 then 1 else 0 : ℕ) : ℚ) := by
    split_ifs <;> norm_num
  have e3 : (if m.nesting_depth_avg < 3 then (2 : ℚ)
        else if m.nesting_depth_avg < 4 then 1 else 0)
      = ((if m.nesting_depth_avg < 3 then 2
        else if m.nesting_depth_avg < 4 then 1 else 0 : ℕ) : ℚ) := by
    split_ifs <;> norm_num
  have e4 : (if 1/10 < m.comment_ratio then (1 : ℚ) else 0)
      = ((if 1/10 < m.comment_ratio then 1 else 0 : ℕ) : ℚ) := by
    split_ifs <;> norm_num
  have e5 : (if m.has_type_hints then (1 : ℚ) else 0)
      = ((if m.has_type_hints then 1 else 0 : ℕ) : ℚ) := by
    split_ifs <;> norm_num
  have e6 : (if m.complexity_avg = 0 then (2 : ℚ)
        else if m.complexity_avg < 5 then 2
        else if m.complexity_avg < 8 then 1 else 0)
      = ((if m.complexity_avg = 0 then 2
        else if m.complexity_avg < 5 then 2
        else if m.complexity_avg < 8 then 1 else 0 : ℕ) : ℚ) := by
    split_ifs <;> norm_num
  have e7 : (if m.has_tests then (1 : ℚ) else 0)
      = ((if m.has_tests then 1 else 0 : ℕ) : ℚ) := by
    split_ifs <;> norm_num
  rw [e1, e2, e3, e4, e5, e6, e7,
    ← Nat.cast_add, ← Nat.cast_add, ← Nat.cast_add, ← Nat.cast_add,
    ← Nat.cast_add, ← Nat.cast_add, pyRound_natCast]

lemma rawRubricPoints_le (m : HeuristicMetrics) : rawRubricPoints m ≤ 11 := by
  unfold rawRubricPoints
  have h1 : (if m.line_length_avg < 100 then 2
      else if m.line_length_avg < 120 then 1 else 0 : ℕ) ≤ 2 := by
    split_ifs <;> norm_num
  have h2 : (if m.function_length_avg = 0 then 1
      else if m.function_length_avg < 30 then 2
      else if m.function_length_avg < 50 then 1 else 0 : ℕ) ≤ 2 := by
    split_ifs <;> norm_num
  have h3 : (if m.nesting_depth_avg < 3 then 2
      else if m.nesting_depth_avg < 4 then 1 else 0 : ℕ) ≤ 2 := by
    split_ifs <;> norm_num
  have h4 : (if 1/10 < m.comment_ratio then 1 else 0 : ℕ) ≤ 1 := by
    split_ifs <;> norm_num
  have h5 : (if m.has_type_hints then 1 else 0 : ℕ) ≤ 1 := by
    split_ifs <;> norm_num
  have h6 : (if m.complexity_avg = 0 then 2
      else if m.complexity_avg < 5 then 2
      else if m.complexity_avg < 8 then 1 else 0 : ℕ) ≤ 2 := by
    split_ifs <;> norm_num
  have h7 : (if m.has_tests then 1 else 0 : ℕ) ≤ 1 := by
    split_ifs <;> norm_num
  omega

lemma normalizeHeuristics_nonneg (m : HeuristicMetrics) : 0 ≤ normalizeHeuristics m := by
  rw [normalizeHeuristics_eq_min]
  have h1 : (0 : ℚ) ≤ (rawRubricPoints m : ℚ) := by positivity
  exact le_min h1 (by norm_num)

lemma normalizeHeuristics_le_ten (m : HeuristicMetrics) : normalizeHeuristics m ≤ 10 := by
  rw [normalizeHeuristics_eq_min]
  exact min_le_right _ _

/-- A synthetic "perfect" metrics record: every rubric signal maxed out,
so the raw point sum reaches 11. -/
def perfectMetrics : HeuristicMetrics :=
  { line_length_avg := 50
    line_length_max := 80
    lines_too_long_pct := 0
    function_length_avg := 10
    function_length_max := 12
    function_count := 2
    nesting_depth_avg := 1
    nesting_depth_max := 2
    comment_ratio := 1/5
    has_tests := true
    has_type_hints := true
    complexity_avg := 0
    complexity_max := 0
    complexity_total := 0 }

/-! ### Claims C1 and C2 -/

/-- C2: score normalization is the additive rubric point sum capped at `10.0`;
the result lies in `[0, 10]` for every metrics record, even though the raw
maximum achievable sum is 11 (reached by `perfectMetrics`). -/
theorem c2_normalization_capped_at_ten :
    (∀ m : HeuristicMetrics,
        normalizeHeuristics m = min ((rawRubricPoints m : ℚ)) 10
          ∧ 0 ≤ normalizeHeuristics m ∧ normalizeHeuristics m ≤ 10
          ∧ rawRubricPoints m ≤ 11)
      ∧ rawRubricPoints perfectMetrics = 11
      ∧ normalizeHeuristics perfectMetrics = 10 := by
  have hraw : rawRubricPoints perfectMetrics = 11 := by
    norm_num [rawRubricPoints, perfectMetrics]
  refine ⟨fun m => ⟨normalizeHeuristics_eq_min m, normalizeHeuristics_nonneg m,
    normalizeHeuristics_le_ten m, rawRubricPoints_le m⟩, hraw, ?_⟩
  rw [normalizeHeuristics_eq_min, hraw]
  norm_num

/-! ### Attribute mapping (`app/services/image_service.py`,
`map_analysis_to_cat_attributes`, and `config/mappings.py`) -/

/-- Lowercase a string character by character (Python `str.lower` on ASCII). -/
def strLower (s : String) : String := String.mk (s.toList.map Char.toLower)

/-- Python whitespace characters (the ASCII ones stripped by `str.strip`
and matched by the regex class `\s`). -/
def pyIsSpace (c : Char) : Bool :=
  c = ' ' || c = '\t' || c = '\n' || c = '\r' || c = '\x0b' || c = '\x0c'

/-- Python `str.strip()`: drop leading and trailing whitespace. -/
def pyStrip (s : String) : String :=
  String.mk (((s.toList.dropWhile pyIsSpace).reverse.dropWhile pyIsSpace).reverse)

/-- `LANGUAGE_BACKGROUNDS` from `config/mappings.py` (28 entries, insertion
order preserved as in the Python dict). -/
def LANGUAGE_BACKGROUNDS : List (String × String) :=
  [("Python", "snakes and code snippets in a cozy den"),
   ("JavaScript", "coffee cups and scattered npm packages on a laptop desk"),
   ("TypeScript", "organized coffee cups with a blue bow tie and type annotations"),
   ("Java", "coffee beans and enterprise office buildings with glass windows"),
   ("C#", ".NET framework symbols and Windows logos on a modern workspace"),
   ("C++", "circuit boards and low-level hardware with pointers and wires"),
   ("C", "memory chips and pointer diagrams on vintage computer hardware"),
   ("Go", "gophers running playfully through scenic mountains"),
   ("Rust", "gears, a friendly orange crab named Ferris, and metal safety equipment"),
   ("PHP", "purple elephants and web servers with code scrolls"),
   ("Ruby", "sparkling red gems scattered on polished railway tracks"),
   ("Swift", "elegant bird feathers and sleek iOS devices in a modern studio"),
   ("Kotlin", "friendly Android robots climbing colorful mountains"),
   ("Perl", "wise camels carrying ancient scrolls through desert landscapes"),
   ("Scala", "elegant marble staircases ascending toward JVM clouds"),
   ("Haskell", "lambda symbols and complex mathematical equations on chalkboards"),
   ("Elixir", "mystical potion bottles and alchemy symbols in a magical workshop"),
   ("Clojure", "colorful nested parentheses forming beautiful fractal patterns"),
   ("Lua", "crescent moon and glowing stars in a peaceful night sky"),
   ("R", "statistical graphs and colorful data charts on scientific displays"),
   ("Dart", "delicate Flutter butterflies around vibrant mobile app screens"),
   ("Shell", "terminal windows with green text on black screens"),
   ("Bash", "command prompts and cascading shell scripts in a terminal"),
   ("Objective-C", "classic Apple logos and legacy code blueprints from the past"),
   ("F#", "functional programming pipes and .NET symbols in harmony"),
   ("Erlang", "telephone switches and distributed network diagrams"),
   ("Groovy", "musical notes and Gradle build scripts dancing together"),
   ("Crystal", "sparkling crystal shards and high-performance gemstones")]

def DEFAULT_BACKGROUND : String :=
  "a generic code editor with colorful syntax highlighting and binary matrix"

/-- `get_language_background` from `config/mappings.py`: exact lookup first,
then case-insensitive lookup, then the default. -/
def getLanguageBackground (language : String) : String :=
  if language = "" then DEFAULT_BACKGROUND
  else
    let languageNormalized := pyStrip language
    match LANGUAGE_BACKGROUNDS.find? (fun e => e.1 = languageNormalized) with
    | some e => e.2
    | none =>
      match LANGUAGE_BACKGROUNDS.find?
          (fun e => strLower e.1 = strLower languageNormalized) with
      | some e => e.2
      | none => DEFAULT_BACKGROUND

/-- `CAT_SIZE_MAPPING` ranges from `config/mappings.py`, in dict order:
`(key, range_min, range_max)`. -/
def CAT_SIZE_MAPPING : List (String × ℚ × ℚ) :=
  [("small", 0, 1000),
   ("medium", 1001, 5000),
   ("large", 5001, 10000),
   ("very_large", 10001, 999999)]

/-- Repository metadata fields consumed by the attribute mapper
(`metadata.get("size_kb", 0)`, `metadata.get("primary_language", "Unknown")`). -/
structure RepoMetadata where
  size_kb : ℚ
  primary_language : String

/-- Analysis fields consumed by the attribute mapper
(`analysis["code_quality_score"]` and
`analysis.get("metrics", {}).get("has_tests", False)`). -/
structure AnalysisOutcome where
  code_quality_score : ℚ
  has_tests : Bool

/-- The cat attribute record produced by `map_analysis_to_cat_attributes`. -/
structure CatAttributes where
  size : String
  age : String
  beauty_score : ℚ
  expression : String
  background : String
  language : String
deriving Repr, DecidableEq

/-- `map_analysis_to_cat_attributes` from `app/services/image_service.py`. -/
def mapAnalysisToCatAttributes (metadata : RepoMetadata)
    (analysis : AnalysisOutcome) : CatAttributes :=
  let qualityScore := analysis.code_quality_score
  let repoSizeKb := metadata.size_kb
  let primaryLanguage := metadata.primary_language
  -- size: first range table entry with range_min <= size_kb <= range_max, default "medium"
  let size := match CAT_SIZE_MAPPING.find?
      (fun e => e.2.1 ≤ repoSizeKb && repoSizeKb ≤ e.2.2) with
    | some e => e.1
    | none => "medium"
  -- age: threshold ladder on the quality score
  let age := if 8 ≤ qualityScore then "senior"
    else if 6 ≤ qualityScore then "adult"
    else if 4 ≤ qualityScore then "young"
    else "kitten"
  -- expression: quality score plus test presence
  let hasTests := analysis.has_tests
  let expression := if 8 ≤ qualityScore && hasTests then "happy"
    else if 6 ≤ qualityScore then "neutral"
    else if 4 ≤ qualityScore then "concerned"
    else "grumpy"
  { size := size
    age := age
    beauty_score := qualityScore
    expression := expression
    background := getLanguageBackground primaryLanguage
    language := primaryLanguage }

/-- C8: the age and expression attributes follow the fixed threshold ladders
on the fused score, and in particular score 8.5 with tests maps to
senior/happy, and score 2.0 maps to grumpy; sizeKb 3000 maps to medium. -/
theorem c8_attribute_threshold_ladders :
    (∀ (md : RepoMetadata) (an : AnalysisOutcome),
        (mapAnalysisToCatAttributes md an).age
          = (if 8 ≤ an.code_quality_score then "senior"
            else if 6 ≤ an.code_quality_score then "adult"
            else if 4 ≤ an.code_quality_score then "young"
            else "kitten")
      ∧ (mapAnalysisToCatAttributes md an).expression
          = (if 8 ≤ an.code_quality_score ∧ an.has_tests then "happy"
            else if 6 ≤ an.code_quality_score then "neutral"
            else if 4 ≤ an.code_quality_score then "concerned"
            else "grumpy"))
    ∧ (mapAnalysisToCatAttributes ⟨3000, "Python"⟩ ⟨85/10, true⟩).size = "medium"
    ∧ (mapAnalysisToCatAttributes ⟨3000, "Python"⟩ ⟨85/10, true⟩).age = "senior"
    ∧ (mapAnalysisToCatAttributes ⟨3000, "Python"⟩ ⟨85/10, true⟩).expression = "happy"
    ∧ (mapAnalysisToCatAttributes ⟨500, "Python"⟩ ⟨2, false⟩).expression = "grumpy" := by
  refine ⟨fun md an => ⟨rfl, ?_⟩, ?_, ?_, ?_, ?_⟩
  · show (if 8 ≤ an.code_quality_score && an.has_tests then "happy"
      else if 6 ≤ an.code_quality_score then "neutral"
      else if 4 ≤ an.code_quality_score then "concerned"
      else "grumpy") = _
    by_cases h1 : 8 ≤ an.code_quality_score <;>
      cases h2 : an.has_tests <;>
        simp [h1, h2]
  · show (match CAT_SIZE_MAPPING.find?
        (fun e => e.2.1 ≤ (3000 : ℚ) && (3000 : ℚ) ≤ e.2.2) with
      | some e => e.1
      | none => "medium") = "medium"
    norm_num [CAT_SIZE_MAPPING, List.find?]
  · show (if 8 ≤ (85/10 : ℚ) then "senior"
      else if 6 ≤ (85/10 : ℚ) then "adult"
      else if 4 ≤ (85/10 : ℚ) then "young"
      else "kitten") = "senior"
    norm_num
  · show (if 8 ≤ (85/10 : ℚ) && true then "happy"
      else if 6 ≤ (85/10 : ℚ) then "neutral"
      else if 4 ≤ (85/10 : ℚ) then "concerned"
      else "grumpy") = "happy"
    norm_num
  · show (if 8 ≤ (2 : ℚ) && false then "happy"
      else if 6 ≤ (2 : ℚ) then "neutral"
      else if 4 ≤ (2 : ℚ) then "concerned"
      else "grumpy") = "grumpy"
    norm_num

/-! ### Bounded retry with exponential backoff
(`OpenRouterProvider._exponential_backoff_retry`)

The wrapped external call is modelled as a function `beh` giving the outcome
of the n-th call (0-based).  The trace records the result class, the number of
attempts actually made, and the list of sleep delays in seconds. -/

/-- Outcome classes a single call can produce (`RateLimitError`,
`AuthenticationError`, `APIError`, or success). -/
inductive CallOutcome where
  | success
  | rateLimited
  | authError
  | apiError
deriving Repr, DecidableEq

/-- Result class of the whole retry wrapper. -/
inductive RetryResult where
  | ok
  | rateLimitError
  | authFailure
  | apiFailure
  | exhausted
deriving Repr, DecidableEq

/-- Observable trace of a retry run. -/
structure RetryTrace where
  result : RetryResult
  attempts : ℕ
  delays : List ℕ
deriving Repr, DecidableEq

def MAX_RETRIES : ℕ := 3
def BASE_RETRY_DELAY : ℕ := 1

/-- The `for attempt in range(max_retries)` loop of
`_exponential_backoff_retry`: `fuel` is the number of loop iterations left,
`attempt` the current 0-based index.  On `RateLimitError` at the last index the
error is re-raised, otherwise the loop sleeps `BASE_RETRY_DELAY * 2 ** attempt`
seconds and retries; `AuthenticationError` and `APIError` re-raise at once.
`exhausted` models falling off the loop (Python returns `None`), which is
unreachable for a positive attempt budget. -/
def retryGo (beh : ℕ → CallOutcome) (maxRetries : ℕ) :
    ℕ → ℕ → List ℕ → RetryTrace
  | 0, attempt, delays => ⟨.exhausted, attempt, delays⟩
  | fuel + 1, attempt, delays =>
    match beh attempt with
    | .success => ⟨.ok, attempt + 1, delays⟩
    | .authError => ⟨.authFailure, attempt + 1, delays⟩
    | .apiError => ⟨.apiFailure, attempt + 1, delays⟩
    | .rateLimited =>
      if attempt = maxRetries - 1 then ⟨.rateLimitError, attempt + 1, delays⟩
      else retryGo beh maxRetries fuel (attempt + 1)
        (delays ++ [BASE_RETRY_DELAY * 2 ^ attempt])

/-- `OpenRouterProvider._exponential_backoff_retry` with the default attempt
budget of `MAX_RETRIES = 3`. -/
def exponentialBackoffRetry (beh : ℕ → CallOutcome) : RetryTrace :=
  retryGo beh MAX_RETRIES MAX_RETRIES 0 []

lemma retryGo_attempts_le (beh : ℕ → CallOutcome) (maxRetries : ℕ) :
    ∀ fuel attempt delays,
      (retryGo beh maxRetries fuel attempt delays).attempts ≤ attempt + fuel := by
  intro fuel
  induction fuel with
  | zero => intro attempt delays; simp [retryGo]
  | succ n ih =>
    intro attempt delays
    cases hb : beh attempt with
    | success =>
      simp only [retryGo, hb]
      show attempt + 1 ≤ attempt + (n + 1)
      omega
    | authError =>
      simp only [retryGo, hb]
      show attempt + 1 ≤ attempt + (n + 1)
      omega
    | apiError =>
      simp only [retryGo, hb]
      show attempt + 1 ≤ attempt + (n + 1)
      omega
    | rateLimited =>
      simp only [retryGo, hb]
      split
      · show attempt + 1 ≤ attempt + (n + 1)
        omega
      · have := ih (attempt + 1) (delays ++ [BASE_RETRY_DELAY * 2 ^ attempt])
        omega

/-- C5: the retry wrapper makes at most 3 attempts; rate-limit then success
makes exactly 2 attempts with a single 1-second delay; persistent rate
limiting makes exactly 3 attempts with delays 1s then 2s and surfaces the
rate-limit error; an authentication failure is raised after 1 attempt with no
retry. -/
theorem c5_retry_backoff_policy (beh : ℕ → CallOutcome) :
    (exponentialBackoffRetry beh).attempts ≤ 3
    ∧ (beh 0 = .rateLimited → beh 1 = .success →
        exponentialBackoffRetry beh = ⟨.ok, 2, [1]⟩)
    ∧ ((∀ n, beh n = .rateLimited) →
        exponentialBackoffRetry beh = ⟨.rateLimitError, 3, [1, 2]⟩)
    ∧ (beh 0 = .authError →
        exponentialBackoffRetry beh = ⟨.authFailure, 1, []⟩) := by
  refine ⟨?_, ?_, ?_, ?_⟩
  · have := retryGo_attempts_le beh MAX_RETRIES MAX_RETRIES 0 []
    simpa [exponentialBackoffRetry, MAX_RETRIES] using this
  · intro h0 h1
    simp [exponentialBackoffRetry, retryGo, h0, h1, MAX_RETRIES, BASE_RETRY_DELAY]
  · intro h
    simp [exponentialBackoffRetry, retryGo, h 0, h 1, h 2, MAX_RETRIES, BASE_RETRY_DELAY]
  · intro h0
    simp [exponentialBackoffRetry, retryGo, h0, MAX_RETRIES]

/-- C5 witness: the three retry scenarios at concrete call behaviours. -/
theorem c5_retry_backoff_policy_witness :
    (exponentialBackoffRetry (fun n => if n = 0 then .rateLimited else .success)
        = ⟨.ok, 2, [1]⟩)
    ∧ (exponentialBackoffRetry (fun _ => .rateLimited)
        = ⟨.rateLimitError, 3, [1, 2]⟩)
    ∧ (exponentialBackoffRetry (fun _ => .authError)
        = ⟨.authFailure, 1, []⟩) :=
  ⟨(c5_retry_backoff_policy (fun n => if n = 0 then .rateLimited else .success)).2.1
      (by simp) (by simp),
   (c5_retry_backoff_policy (fun _ => .rateLimited)).2.2.1 (fun n => rfl),
   (c5_retry_backoff_policy (fun _ => .authError)).2.2.2 rfl⟩

/-! ### Python string primitives used by the heuristic analyzer -/

abbrev Chars := List Char

/-- The regex word class `\w` (ASCII): letters, digits, underscore. -/
def isWordChar (c : Char) : Bool := c.isAlpha || c.isDigit || c = '_'

/-- Python `str.splitlines`, helper: split on `\n`, `\r\n`, `\r`. -/
def splitLinesAux : Chars → List Chars
  | [] => [[]]
  | '\r' :: '\n' :: rest => [] :: splitLinesAux rest
  | '\n' :: rest => [] :: splitLinesAux rest
  | '\r' :: rest => [] :: splitLinesAux rest
  | c :: rest =>
    match splitLinesAux rest with
    | [] => [[c]]
    | l :: ls => (c :: l) :: ls

/-- Python `str.splitlines`: no trailing empty line for a trailing break. -/
def pySplitLines (s : Chars) : List Chars :=
  let ls := splitLinesAux s
  if ls.getLast? = some [] then ls.dropLast else ls

/-- Python falsiness of `code.strip()`: the string is empty or whitespace. -/
def isBlankPy (s : Chars) : Bool := s.all pyIsSpace

/-- Drop leading whitespace (`str.lstrip`, and the regex `\s*`). -/
def skipWs (l : Chars) : Chars := l.dropWhile pyIsSpace

/-- `len(line) - len(line.lstrip())`: number of leading whitespace chars. -/
def leadingWsCount (l : Chars) : ℕ := l.length - (l.dropWhile pyIsSpace).length

/-- Python substring test `needle in hay`. -/
def listContainsSub (needle : Chars) : Chars → Bool
  | [] => needle.isEmpty
  | c :: t => needle.isPrefixOf (c :: t) || listContainsSub needle t

/-- Python substring test on `String`s: `strContains hay needle`. -/
def strContains (hay needle : String) : Bool :=
  listContainsSub needle.toList hay.toList

/-- Python `str.count` for a non-empty needle: non-overlapping occurrences,
scanning left to right. -/
def countOccGo (n0 : Char) (nrest : Chars) : Chars → ℕ
  | [] => 0
  | c :: t =>
    if (n0 :: nrest).isPrefixOf (c :: t)
    then 1 + countOccGo n0 nrest (t.drop nrest.length)
    else countOccGo n0 nrest t
termination_by l => l.length
decreasing_by
  all_goals simp only [List.length_drop, List.length_cons]
  all_goals omega

/-- Python `hay.count(needle)`. -/
def countOcc (needle hay : Chars) : ℕ :=
  match needle with
  | [] => hay.length + 1
  | n0 :: nrest => countOccGo n0 nrest hay

/-- `statistics.mean` on exact rationals (callers guard against `[]`). -/
def qmean (l : List ℚ) : ℚ := l.sum / (l.length : ℚ)

/-- Python `max(l)` for non-empty `l`, and the `... if l else 0` /
`max(..., default=0)` guards used at every call site. -/
def pyMaxQ (l : List ℚ) : ℚ :=
  match l with
  | [] => 0
  | x :: xs => xs.foldl max x

def openBrace : Char := Char.ofNat 123
def closeBrace : Char := Char.ofNat 125

/-! ### Language-specific regular expressions of `analysis_service.py`,
each translated to an equivalent matcher on one line of characters -/

/-- `KW\s+\w+` at the start of `l` (used by the Python/Ruby/Go/Rust function
patterns and the PHP/JS `function` keyword). -/
def matchAfterKeyword (kw : Chars) (l : Chars) : Bool :=
  kw.isPrefixOf l &&
    (let r := l.drop kw.length
     match r with
     | [] => false
     | c :: _ =>
       pyIsSpace c &&
         (match skipWs r with
          | [] => false
          | d :: _ => isWordChar d))

/-- Python: `^\s*(def|async def)\s+\w+` (`re.match`). -/
def pyFuncHeader (line : Chars) : Bool :=
  let r := skipWs line
  matchAfterKeyword "def".toList r || matchAfterKeyword "async def".toList r

/-- Ruby: `^\s*def\s+\w+`. -/
def rubyFuncHeader (line : Chars) : Bool :=
  matchAfterKeyword "def".toList (skipWs line)

/-- Go: `^\s*func\s+\w+`. -/
def goFuncHeader (line : Chars) : Bool :=
  matchAfterKeyword "func".toList (skipWs line)

/-- Rust: `^\s*fn\s+\w+`. -/
def rustFuncHeader (line : Chars) : Bool :=
  matchAfterKeyword "fn".toList (skipWs line)

/-- The `\s*=\s*\([^)]*\)\s*=>` tail of the JS/TS arrow-function patterns. -/
def jsArrowTail (l : Chars) : Bool :=
  match skipWs l with
  | '=' :: l2 =>
    (match skipWs l2 with
     | '(' :: l4 =>
       (match l4.dropWhile (fun c => c ≠ ')') with
        | ')' :: l6 =>
          (match skipWs l6 with
           | '=' :: '>' :: _ => true
           | _ => false)
        | _ => false)
     | _ => false)
  | _ => false

/-- `KW\s+\w+\s*=\s*\([^)]*\)\s*=>` for `KW` ∈ {`const`, `let`}. -/
def jsDeclArrow (kw : Chars) (l : Chars) : Bool :=
  kw.isPrefixOf l &&
    (let r := l.drop kw.length
     match r with
     | [] => false
     | c :: _ =>
       pyIsSpace c &&
         (match skipWs r with
          | [] => false
          | d :: _ =>
            isWordChar d && jsArrowTail ((skipWs r).dropWhile isWordChar)))

/-- JavaScript/TypeScript:
`^\s*(function\s+\w+|const\s+\w+\s*=\s*\([^)]*\)\s*=>|let\s+\w+\s*=\s*\([^)]*\)\s*=>)`. -/
def jsFuncHeader (line : Chars) : Bool :=
  let r := skipWs line
  matchAfterKeyword "function".toList r
    || jsDeclArrow "const".toList r || jsDeclArrow "let".toList r

/-- Does `\w+\s*\(` occur anywhere in the list (for the Java `.*\w+\s*\(`)? -/
def callSiteAfter : Chars → Bool
  | [] => false
  | c :: t =>
    (isWordChar c &&
      (match skipWs t with
       | '(' :: _ => true
       | _ => false)) || callSiteAfter t

/-- Java: `^\s*(public|private|protected|static).*\w+\s*\(`. -/
def javaFuncHeader (line : Chars) : Bool :=
  let r := skipWs line
  ["public", "private", "protected", "static"].any
    (fun kw => (kw.toList).isPrefixOf r && callSiteAfter (r.drop kw.length))

/-- C: `^\w+\s+\w+\s*\(`. -/
def cFuncHeader (line : Chars) : Bool :=
  match line with
  | [] => false
  | c :: _ =>
    isWordChar c &&
      (let r1 := line.dropWhile isWordChar
       match r1 with
       | [] => false
       | d :: _ =>
         pyIsSpace d &&
           (let r2 := skipWs r1
            match r2 with
            | [] => false
            | e :: _ =>
              isWordChar e &&
                (match skipWs (r2.dropWhile isWordChar) with
                 | '(' :: _ => true
                 | _ => false)))

/-- The second C++ alternative: `^\w+::\w+\s*\(`. -/
def cppMethodHeader (line : Chars) : Bool :=
  match line with
  | [] => false
  | c :: _ =>
    isWordChar c &&
      (match line.dropWhile isWordChar with
       | ':' :: ':' :: r2 =>
         (match r2 with
          | [] => false
          | e :: _ =>
            isWordChar e &&
              (match skipWs (r2.dropWhile isWordChar) with
               | '(' :: _ => true
               | _ => false))
       | _ => false)

/-- C++: `^\w+\s+\w+\s*\(|^\w+::\w+\s*\(`. -/
def cppFuncHeader (line : Chars) : Bool := cFuncHeader line || cppMethodHeader line

/-- PHP: `^\s*(public|private|protected)?\s*function\s+\w+`. -/
def phpFuncHeader (line : Chars) : Bool :=
  let r := skipWs line
  matchAfterKeyword "function".toList r
    || (["public", "private", "protected"].any
        (fun kw => (kw.toList).isPrefixOf r
          && matchAfterKeyword "function".toList (skipWs (r.drop kw.length))))

/-- `FUNCTION_PATTERNS.get(language)`: the per-language function-header regex
table of `analysis_service.py` (`None` for an unknown language). -/
def functionHeaderMatcher : String → Option (Chars → Bool)
  | "Python" => some pyFuncHeader
  | "JavaScript" => some jsFuncHeader
  | "TypeScript" => some jsFuncHeader
  | "Go" => some goFuncHeader
  | "Rust" => some rustFuncHeader
  | "Java" => some javaFuncHeader
  | "C" => some cFuncHeader
  | "C++" => some cppFuncHeader
  | "Ruby" => some rubyFuncHeader
  | "PHP" => some phpFuncHeader
  | _ => none

/-- `re.search(r"#.*$", line)`: the line contains a `#`. -/
def hashCommentLine (l : Chars) : Bool := l.contains '#'

/-- `re.search(r"//.*$", line)`: the line contains `//`. -/
def slashSlashLine (l : Chars) : Bool := listContainsSub ['/', '/'] l

/-- `re.search(r"/\*.*?\*/", line)`: some `/*` is followed by a `*/`. -/
def blockCommentLine : Chars → Bool
  | [] => false
  | '/' :: '*' :: rest => listContainsSub ['*', '/'] rest || blockCommentLine rest
  | _ :: rest => blockCommentLine rest

/-- `COMMENT_PATTERNS.get(language, [])` from `analysis_service.py`. -/
def commentMatchers (language : String) : List (Chars → Bool) :=
  match language with
  | "Python" => [hashCommentLine]
  | "JavaScript" => [slashSlashLine, blockCommentLine]
  | "TypeScript" => [slashSlashLine, blockCommentLine]
  | "Go" => [slashSlashLine, blockCommentLine]
  | "Rust" => [slashSlashLine, blockCommentLine]
  | "Java" => [slashSlashLine, blockCommentLine]
  | "C" => [slashSlashLine, blockCommentLine]
  | "C++" => [slashSlashLine, blockCommentLine]
  | "Ruby" => [hashCommentLine]
  | "PHP" => [slashSlashLine, blockCommentLine, hashCommentLine]
  | _ => []

/-- A match of `\w+\s*:\s*\w+` starting at the head of `l`. -/
def typeHintAt (l : Chars) : Bool :=
  match l with
  | [] => false
  | c :: _ =>
    isWordChar c &&
      (match skipWs (l.dropWhile isWordChar) with
       | ':' :: r3 =>
         (match skipWs r3 with
          | d :: _ => isWordChar d
          | [] => false)
       | _ => false)

/-- `re.search(r"\w+\s*:\s*\w+", code)` over the whole source text. -/
def typeHintSearch : Chars → Bool
  | [] => false
  | c :: rest => typeHintAt (c :: rest) || typeHintSearch rest

/-! ### Per-file heuristic metrics (`AnalysisService._analyze_line_lengths`,
`_detect_function_lengths`, `_calculate_nesting_depth`,
`_calculate_comment_ratio`, `_detect_type_hints`, `_calculate_complexity`) -/

structure LineMetrics where
  line_length_avg : ℚ
  line_length_max : ℚ
  lines_too_long_pct : ℚ
deriving Repr, DecidableEq

structure FuncMetrics where
  function_length_avg : ℚ
  function_length_max : ℚ
  function_count : ℕ
deriving Repr, DecidableEq

structure NestMetrics where
  nesting_depth_avg : ℚ
  nesting_depth_max : ℚ
deriving Repr, DecidableEq

structure ComplexityMetrics where
  complexity_avg : ℚ
  complexity_max : ℚ
  complexity_total : ℕ
deriving Repr, DecidableEq

/-- `AnalysisService._analyze_line_lengths` (the `language` argument is
unused by the source as well). -/
def analyzeLineLengths (code : Chars) (language : String) : LineMetrics :=
  if isBlankPy code then ⟨0, 0, 0⟩
  else
    let lines := pySplitLines code
    if lines.isEmpty then ⟨0, 0, 0⟩
    else
      let lengths : List ℚ := lines.map (fun l => (l.length : ℚ))
      let tooLongCount := (lengths.filter (fun len => 120 < len)).length
      { line_length_avg := if lengths.isEmpty then 0 else pyRound (qmean lengths) 1
        line_length_max := pyMaxQ lengths
        lines_too_long_pct :=
          if lines.isEmpty then 0
          else pyRound ((tooLongCount : ℚ) / (lines.length : ℚ) * 100) 1 }

/-- `AnalysisService._detect_function_lengths`: a state machine over the
lines; for indentation-delimited languages (Python, Ruby) a function ends at
the first non-blank line whose indentation is at most the header's. -/
def detectFunctionLengths (code : Chars) (language : String) : FuncMetrics :=
  if isBlankPy code then ⟨0, 0, 0⟩
  else
    match functionHeaderMatcher language with
    | none => ⟨0, 0, 0⟩
    | some isHeader =>
      let lines := pySplitLines code
      let indentDelimited := language = "Python" || language = "Ruby"
      let final := lines.foldl
        (fun (acc : ℕ × Option (ℕ × ℕ) × List ℕ) line =>
          let i := acc.1
          let cur := acc.2.1
          let lens := acc.2.2
          if isHeader line then
            let lens2 := match cur with
              | some s => if 0 < i - s.1 then lens ++ [i - s.1] else lens
              | none => lens
            (i + 1, some (i, leadingWsCount line), lens2)
          else
            match cur with
            | some s =>
              if indentDelimited then
                if !(isBlankPy line) then
                  if leadingWsCount line ≤ s.2 then
                    (i + 1, none, if 0 < i - s.1 then lens ++ [i - s.1] else lens)
                  else (i + 1, cur, lens)
                else (i + 1, cur, lens)
              else (i + 1, cur, lens)
            | none => (i + 1, cur, lens))
        (0, none, [])
      let lens := match final.2.1 with
        | some s =>
          if 0 < lines.length - s.1 then final.2.2 ++ [lines.length - s.1]
          else final.2.2
        | none => final.2.2
      if lens.isEmpty then ⟨0, 0, 0⟩
      else
        { function_length_avg := pyRound (qmean (lens.map (fun n : ℕ => (n : ℚ)))) 1
          function_length_max := pyMaxQ (lens.map (fun n : ℕ => (n : ℚ)))
          function_count := lens.length }

/-- The per-line depth samples collected by `_calculate_nesting_depth`:
indentation levels divided by 4 for Python/Ruby, a running brace counter
(floored at 0, sampled before each line's braces) otherwise. -/
def nestingDepthsList (lines : List Chars) (language : String) : List ℕ :=
  if language = "Python" || language = "Ruby" then
    (lines.filter (fun l => !(isBlankPy l))).map (fun l => leadingWsCount l / 4)
  else
    ((lines.foldl (fun (acc : ℕ × List ℕ) l =>
      if isBlankPy l then acc
      else
        let braceDepth := acc.1
        let ds := acc.2 ++ [braceDepth]
        let opening := (l.filter (fun c => c = openBrace)).length
        let closing := (l.filter (fun c => c = closeBrace)).length
        (braceDepth + opening - closing, ds)) ((0 : ℕ), ([] : List ℕ))).2)

/-- `AnalysisService._calculate_nesting_depth`. -/
def calculateNestingDepth (code : Chars) (language : String) : NestMetrics :=
  if isBlankPy code then ⟨0, 0⟩
  else
    let depths := nestingDepthsList (pySplitLines code) language
    if depths.isEmpty then ⟨0, 0⟩
    else
      { nesting_depth_avg := pyRound (qmean (depths.map (fun n : ℕ => (n : ℚ)))) 1
        nesting_depth_max := pyMaxQ (depths.map (fun n : ℕ => (n : ℚ))) }

/-- `AnalysisService._calculate_comment_ratio`: fraction of lines matching a
comment pattern, rounded to 2 decimals. -/
def calculateCommentRatio (code : Chars) (language : String) : ℚ :=
  if isBlankPy code then 0
  else
    let patterns := commentMatchers language
    if patterns.isEmpty then 0
    else
      let lines := pySplitLines code
      if lines.isEmpty then 0
      else
        let commentCount := (lines.filter (fun l => patterns.any (fun p => p l))).length
        pyRound ((commentCount : ℚ) / (lines.length : ℚ)) 2

/-- `AnalysisService._detect_type_hints`: regex search for languages with
optional typing; always true for the built-in-typed languages; false for
anything else (including languages absent from the table). -/
def detectTypeHints (code : Chars) (language : String) : Bool :=
  if isBlankPy code then false
  else
    match language with
    | "Python" => typeHintSearch code
    | "TypeScript" => typeHintSearch code
    | "Ruby" => typeHintSearch code
    | "PHP" => typeHintSearch code
    | _ => ["Go", "Rust", "Java", "C", "C++"].contains language

/-- `COMPLEXITY_KEYWORDS` from `analysis_service.py`. -/
def COMPLEXITY_KEYWORDS : List String :=
  ["if", "else", "elif", "for", "while", "switch", "case",
   "catch", "except", "&&", "||", "and", "or"]

/-- Per-line keyword count: `sum(line.lower().count(kw) for kw in keywords)`. -/
def lineComplexity (line : Chars) : ℕ :=
  let lower := line.map Char.toLower
  (COMPLEXITY_KEYWORDS.map (fun kw => countOcc kw.toList lower)).sum

/-- `AnalysisService._calculate_complexity`. -/
def calculateComplexity (code : Chars) (language : String) : ComplexityMetrics :=
  if isBlankPy code then ⟨0, 0, 0⟩
  else
    let lines := pySplitLines code
    let perLine := lines.map lineComplexity
    let lineComplexities := perLine.filter (fun n => 0 < n)
    let totalComplexity := perLine.sum
    if lineComplexities.isEmpty then ⟨0, 0, 0⟩
    else
      { complexity_avg := pyRound (qmean (lineComplexities.map (fun n : ℕ => (n : ℚ)))) 1
        complexity_max := pyMaxQ (lineComplexities.map (fun n : ℕ => (n : ℚ)))
        complexity_total := totalComplexity }

/-! ### Cross-file aggregation (`AnalysisService.calculate_code_quality_score`) -/

/-- One entry of the `code_files` list: a dict with keys `path`, `language`,
`content` (defaults `""`, `"Python"`, `""` are supplied by callers). -/
structure CodeFile where
  path : String
  language : String
  content : String
deriving Repr, DecidableEq

/-- The per-file test check of `calculate_code_quality_score`:
`"test" in path.lower() or "_test" in path.lower() or "spec" in path.lower()`. -/
def isTestFilePath (path : String) : Bool :=
  let p := strLower path
  strContains p "test" || strContains p "_test" || strContains p "spec"

/-- The aggregation step of `calculate_code_quality_score` (lines 209-249):
means over filtered per-file averages, maxima with default 0, sums, and the
final per-field rounding of the returned metrics dict. -/
def aggregateMetrics (allLineLengths : List LineMetrics)
    (allFunctionLengths : List FuncMetrics) (allNestingDepths : List NestMetrics)
    (allCommentRatios : List ℚ) (allComplexities : List ComplexityMetrics)
    (hasTests hasTypeHints : Bool) : HeuristicMetrics :=
  let lineLengthValues := (allLineLengths.map (·.line_length_avg)).filter (fun v => 0 < v)
  let lineLengthAvg := if lineLengthValues.isEmpty then 0 else qmean lineLengthValues
  let lineLengthMax := pyMaxQ (allLineLengths.map (·.line_length_max))
  let linesTooLongValues := (allLineLengths.map (·.lines_too_long_pct)).filter (fun v => 0 ≤ v)
  let linesTooLongPct := if linesTooLongValues.isEmpty then 0 else qmean linesTooLongValues
  let functionLengthValues := (allFunctionLengths.map (·.function_length_avg)).filter (fun v => 0 < v)
  let functionLengthAvg := if functionLengthValues.isEmpty then 0 else qmean functionLengthValues
  let functionLengthMax := pyMaxQ (allFunctionLengths.map (·.function_length_max))
  let functionCount := (allFunctionLengths.map (·.function_count)).sum
  let nestingDepthValues := (allNestingDepths.map (·.nesting_depth_avg)).filter (fun v => 0 ≤ v)
  let nestingDepthAvg := if nestingDepthValues.isEmpty then 0 else qmean nestingDepthValues
  let nestingDepthMax := pyMaxQ (allNestingDepths.map (·.nesting_depth_max))
  let commentRatioValues := allCommentRatios.filter (fun r => 0 ≤ r)
  let commentRatio := if commentRatioValues.isEmpty then 0 else qmean commentRatioValues
  let complexityValues := (allComplexities.map (·.complexity_avg)).filter (fun v => 0 < v)
  let complexityAvg := if complexityValues.isEmpty then 0 else qmean complexityValues
  let complexityMax := pyMaxQ (allComplexities.map (·.complexity_max))
  let complexityTotal := (allComplexities.map (·.complexity_total)).sum
  { line_length_avg := if lineLengthAvg = 0 then 0 else pyRound lineLengthAvg 1
    line_length_max := lineLengthMax
    lines_too_long_pct := if linesTooLongPct = 0 then 0 else pyRound linesTooLongPct 1
    function_length_avg := if functionLengthAvg = 0 then 0 else pyRound functionLengthAvg 1
    function_length_max := functionLengthMax
    function_count := functionCount
    nesting_depth_avg := if nestingDepthAvg = 0 then 0 else pyRound nestingDepthAvg 1
    nesting_depth_max := nestingDepthMax
    comment_ratio := pyRound commentRatio 2
    has_tests := hasTests
    has_type_hints := hasTypeHints
    complexity_avg := if complexityAvg = 0 then 0 else pyRound complexityAvg 1
    complexity_max := complexityMax
    complexity_total := complexityTotal }

/-- The files actually analyzed by the loop: `if not content: continue`. -/
def keptFiles (codeFiles : List CodeFile) : List CodeFile :=
  codeFiles.filter (fun f => !(f.content.isEmpty))

/-- `AnalysisService.calculate_code_quality_score`: raises `ValueError`
(modelled as `Except.error`) on an empty list, otherwise analyzes each
file with non-empty content and aggregates. -/
def calculateCodeQualityScore (codeFiles : List CodeFile) :
    Except String HeuristicMetrics :=
  if codeFiles.isEmpty then .error "code_files cannot be empty"
  else
    let kept := keptFiles codeFiles
    let hasTests := kept.any (fun f => isTestFilePath f.path)
    let hasTypeHints := kept.any (fun f => detectTypeHints f.content.toList f.language)
    let allLineLengths := kept.map (fun f => analyzeLineLengths f.content.toList f.language)
    let allFunctionLengths := kept.map (fun f => detectFunctionLengths f.content.toList f.language)
    let allNestingDepths := kept.map (fun f => calculateNestingDepth f.content.toList f.language)
    let allCommentRatios := kept.map (fun f => calculateCommentRatio f.content.toList f.language)
    let allComplexities := kept.map (fun f => calculateComplexity f.content.toList f.language)
    .ok (aggregateMetrics allLineLengths allFunctionLengths allNestingDepths
      allCommentRatios allComplexities hasTests hasTypeHints)

/-- The score computed by `AnalysisService.analyze_code_files` (steps 1-3):
heuristic metrics, normalization, then the weighted fusion with the external
LLM score (`llm_result.overall_quality_score`, passed as a parameter here)
rounded to one decimal — the value stored in
`AnalysisResult.code_quality_score`. -/
def analyzeCodeFilesScore (codeFiles : List CodeFile) (llmScore : ℚ) :
    Except String ℚ :=
  (calculateCodeQualityScore codeFiles).map
    (fun heuristicsMetrics => fuseScores (normalizeHeuristics heuristicsMetrics) llmScore)

/-- C1: score fusion computes `round(0.3 * heuristicScore + 0.7 *
qualitativeScore, 1)`, and for component scores in `[0, 10]` (both
`10.0` included) the fused score — the `AnalysisResult.code_quality_score`
of any analysis run — is always in `[0.0, 10.0]`. -/
theorem c1_score_fusion_bounded :
    (∀ h q : ℚ, 0 ≤ h → h ≤ 10 → 0 ≤ q → q ≤ 10 →
      fuseScores h q = pyRound (3/10 * h + 7/10 * q) 1
        ∧ 0 ≤ fuseScores h q ∧ fuseScores h q ≤ 10)
    ∧ (∀ (codeFiles : List CodeFile) (llmScore : ℚ), codeFiles ≠ [] →
        0 ≤ llmScore → llmScore ≤ 10 →
        ∃ m, calculateCodeQualityScore codeFiles = .ok m
          ∧ analyzeCodeFilesScore codeFiles llmScore
              = .ok (fuseScores (normalizeHeuristics m) llmScore)
          ∧ 0 ≤ fuseScores (normalizeHeuristics m) llmScore
          ∧ fuseScores (normalizeHeuristics m) llmScore ≤ 10) := by
  constructor
  · intro h q hh0 hh1 hq0 hq1
    refine ⟨?_, fuseScores_nonneg hh0 hq0, fuseScores_le_ten hh1 hq1⟩
    unfold fuseScores
    rw [show h * (3/10) + q * (7/10) = 3/10 * h + 7/10 * q from by ring]
  · intro codeFiles llmScore hne hl0 hl1
    obtain ⟨m, hm⟩ : ∃ m, calculateCodeQualityScore codeFiles = .ok m := by
      match codeFiles, hne with
      | f :: fs, _ => exact ⟨_, rfl⟩
    refine ⟨m, hm, ?_, ?_, ?_⟩
    · unfold analyzeCodeFilesScore
      rw [hm]
      rfl
    · exact fuseScores_nonneg (normalizeHeuristics_nonneg m) hl0
    · exact fuseScores_le_ten (normalizeHeuristics_le_ten m) hl1

/-- C1 witness: the fusion with both component scores equal to `10.0` stays
within `[0.0, 10.0]`, and a concrete one-file run with LLM score `10.0`
produces an in-range `code_quality_score`. -/
theorem c1_score_fusion_bounded_witness :
    (fuseScores 10 10 = pyRound (3/10 * 10 + 7/10 * 10) 1
      ∧ 0 ≤ fuseScores 10 10 ∧ fuseScores 10 10 ≤ 10)
    ∧ (∃ m, calculateCodeQualityScore [⟨"main.py", "Python", "x = 1"⟩] = .ok m
        ∧ analyzeCodeFilesScore [⟨"main.py", "Python", "x = 1"⟩] 10
            = .ok (fuseScores (normalizeHeuristics m) 10)
        ∧ 0 ≤ fuseScores (normalizeHeuristics m) 10
        ∧ fuseScores (normalizeHeuristics m) 10 ≤ 10) :=
  ⟨c1_score_fusion_bounded.1 10 10 (by norm_num) (by norm_num) (by norm_num) (by norm_num),
   c1_score_fusion_bounded.2 [⟨"main.py", "Python", "x = 1"⟩] 10 (by simp)
     (by norm_num) (by norm_num)⟩

/-! ### Claim C4: empty-input error behaviour -/

/-- C4: heuristic analysis fails exactly on an empty file list: the empty
list yields the `ValueError("code_files cannot be empty")`, every non-empty
list yields a metrics record, and each per-file sub-metric returns zeroed
metrics (never an error) on empty or whitespace-only content. -/
theorem c4_empty_input_error :
    (calculateCodeQualityScore [] = .error "code_files cannot be empty")
    ∧ (∀ codeFiles : List CodeFile, codeFiles ≠ [] →
        ∃ m, calculateCodeQualityScore codeFiles = .ok m)
    ∧ (∀ (code : Chars) (language : String), isBlankPy code = true →
        analyzeLineLengths code language = ⟨0, 0, 0⟩
        ∧ detectFunctionLengths code language = ⟨0, 0, 0⟩
        ∧ calculateNestingDepth code language = ⟨0, 0⟩
        ∧ calculateCommentRatio code language = 0
        ∧ detectTypeHints code language = false
        ∧ calculateComplexity code language = ⟨0, 0, 0⟩) := by
  refine ⟨rfl, ?_, ?_⟩
  · intro codeFiles h
    match codeFiles, h with
    | f :: fs, _ => exact ⟨_, rfl⟩
  · intro code language h
    exact ⟨by simp [analyzeLineLengths, h], by simp [detectFunctionLengths, h],
      by simp [calculateNestingDepth, h], by simp [calculateCommentRatio, h],
      by simp [detectTypeHints, h], by simp [calculateComplexity, h]⟩

/-- C4 witness: a one-file list is analyzed without error, and the sub-metrics
of a whitespace-only file are zeroed. -/
theorem c4_empty_input_error_witness :
    (∃ m, calculateCodeQualityScore [⟨"main.py", "Python", "x = 1"⟩] = .ok m)
    ∧ (analyzeLineLengths ("  \n ").toList "Python" = ⟨0, 0, 0⟩
        ∧ detectFunctionLengths ("  \n ").toList "Python" = ⟨0, 0, 0⟩
        ∧ calculateNestingDepth ("  \n ").toList "Python" = ⟨0, 0⟩
        ∧ calculateCommentRatio ("  \n ").toList "Python" = 0
        ∧ detectTypeHints ("  \n ").toList "Python" = false
        ∧ calculateComplexity ("  \n ").toList "Python" = ⟨0, 0, 0⟩) :=
  ⟨c4_empty_input_error.2.1 [⟨"main.py", "Python", "x = 1"⟩] (by simp),
   c4_empty_input_error.2.2 ("  \n ").toList "Python" (by decide)⟩

/-! ### Claim C7: cross-file aggregation semantics -/

lemma qmean_nonneg {l : List ℚ} (h : ∀ x ∈ l, 0 ≤ x) : 0 ≤ qmean l := by
  unfold qmean
  exact div_nonneg (List.sum_nonneg h) (by positivity)

lemma nestingDepthAvg_nonneg (code : Chars) (language : String) :
    0 ≤ (calculateNestingDepth code language).nesting_depth_avg := by
  by_cases h1 : isBlankPy code = true
  · simp [calculateNestingDepth, h1]
  · rw [calculateNestingDepth, if_neg h1]
    show 0 ≤ (if (nestingDepthsList (pySplitLines code) language).isEmpty = true
        then ({ nesting_depth_avg := 0, nesting_depth_max := 0 } : NestMetrics)
        else { nesting_depth_avg := pyRound (qmean
                ((nestingDepthsList (pySplitLines code) language).map (fun n : ℕ => (n : ℚ)))) 1
               nesting_depth_max := pyMaxQ
                ((nestingDepthsList (pySplitLines code) language).map
                  (fun n : ℕ => (n : ℚ))) }).nesting_depth_avg
    split
    · norm_num
    · show 0 ≤ pyRound (qmean
        ((nestingDepthsList (pySplitLines code) language).map (fun n : ℕ => (n : ℚ)))) 1
      apply pyRound_nonneg
      apply qmean_nonneg
      intro x hx
      simp only [List.mem_map] at hx
      obtain ⟨n, hn, hxx⟩ := hx
      subst hxx
      exact Nat.cast_nonneg n

lemma commentRatio_nonneg (code : Chars) (language : String) :
    0 ≤ calculateCommentRatio code language := by
  by_cases h1 : isBlankPy code = true
  · simp [calculateCommentRatio, h1]
  · rw [calculateCommentRatio, if_neg h1]
    show 0 ≤ (if (commentMatchers language).isEmpty = true then (0 : ℚ)
        else if (pySplitLines code).isEmpty = true then 0
        else pyRound (((((pySplitLines code).filter
              (fun l => (commentMatchers language).any (fun p => p l))).length : ℚ))
            / (((pySplitLines code).length : ℚ))) 2)
    split
    · norm_num
    · split
      · norm_num
      · apply pyRound_nonneg
        positivity

/-- Mean of the strictly positive entries, 0 when there are none (the shape
used by the aggregation for line length, function length and complexity). -/
def meanOfPositive (l : List ℚ) : ℚ :=
  let v := l.filter (fun x => 0 < x)
  if v.isEmpty then 0 else qmean v

/-- Mean of all entries, 0 when the list is empty. -/
def meanOfAll (l : List ℚ) : ℚ := if l.isEmpty then 0 else qmean l

def fileLineAvg (f : CodeFile) : ℚ :=
  (analyzeLineLengths f.content.toList f.language).line_length_avg

def fileFuncAvg (f : CodeFile) : ℚ :=
  (detectFunctionLengths f.content.toList f.language).function_length_avg

def fileNestAvg (f : CodeFile) : ℚ :=
  (calculateNestingDepth f.content.toList f.language).nesting_depth_avg

def fileCommentRatio (f : CodeFile) : ℚ :=
  calculateCommentRatio f.content.toList f.language

def fileCplxAvg (f : CodeFile) : ℚ :=
  (calculateComplexity f.content.toList f.language).complexity_avg

/-- Mean of the entries that are `>= 0`, 0 when there are none (the shape
used by the aggregation for nesting depth, comment ratio and the
long-line percentage). -/
def meanOfNonneg (l : List ℚ) : ℚ :=
  let v := l.filter (fun x => 0 ≤ x)
  if v.isEmpty then 0 else qmean v

lemma meanOfNonneg_eq_meanOfAll {l : List ℚ} (h : ∀ x ∈ l, 0 ≤ x) :
    meanOfNonneg l = meanOfAll l := by
  unfold meanOfNonneg meanOfAll
  rw [List.filter_eq_self.mpr (fun a ha => decide_eq_true (h a ha))]

lemma agg_line_length_avg (A : List LineMetrics) (B : List FuncMetrics)
    (C : List NestMetrics) (D : List ℚ) (E : List ComplexityMetrics) (t h : Bool) :
    (aggregateMetrics A B C D E t h).line_length_avg
      = (if meanOfPositive (A.map (·.line_length_avg)) = 0 then 0
        else pyRound (meanOfPositive (A.map (·.line_length_avg))) 1) := rfl

lemma agg_function_length_avg (A : List LineMetrics) (B : List FuncMetrics)
    (C : List NestMetrics) (D : List ℚ) (E : List ComplexityMetrics) (t h : Bool) :
    (aggregateMetrics A B C D E t h).function_length_avg
      = (if meanOfPositive (B.map (·.function_length_avg)) = 0 then 0
        else pyRound (meanOfPositive (B.map (·.function_length_avg))) 1) := rfl

lemma agg_complexity_avg (A : List LineMetrics) (B : List FuncMetrics)
    (C : List NestMetrics) (D : List ℚ) (E : List ComplexityMetrics) (t h : Bool) :
    (aggregateMetrics A B C D E t h).complexity_avg
      = (if meanOfPositive (E.map (·.complexity_avg)) = 0 then 0
        else pyRound (meanOfPositive (E.map (·.complexity_avg))) 1) := rfl

lemma agg_nesting_depth_avg (A : List LineMetrics) (B : List FuncMetrics)
    (C : List NestMetrics) (D : List ℚ) (E : List ComplexityMetrics) (t h : Bool) :
    (aggregateMetrics A B C D E t h).nesting_depth_avg
      = (if meanOfNonneg (C.map (·.nesting_depth_avg)) = 0 then 0
        else pyRound (meanOfNonneg (C.map (·.nesting_depth_avg))) 1) := rfl

lemma agg_comment_ratio (A : List LineMetrics) (B : List FuncMetrics)
    (C : List NestMetrics) (D : List ℚ) (E : List ComplexityMetrics) (t h : Bool) :
    (aggregateMetrics A B C D E t h).comment_ratio
      = pyRound (meanOfNonneg D) 2 := rfl

lemma agg_line_length_max (A : List LineMetrics) (B : List FuncMetrics)
    (C : List NestMetrics) (D : List ℚ) (E : List ComplexityMetrics) (t h : Bool) :
    (aggregateMetrics A B C D E t h).line_length_max
      = pyMaxQ (A.map (·.line_length_max)) := rfl

/-- `calculate_code_quality_score` on a non-empty list, spelled out. -/
lemma calculateCodeQualityScore_cons (f : CodeFile) (fs : List CodeFile) :
    calculateCodeQualityScore (f :: fs)
      = .ok (aggregateMetrics
          ((keptFiles (f :: fs)).map
            (fun g => analyzeLineLengths g.content.toList g.language))
          ((keptFiles (f :: fs)).map
            (fun g => detectFunctionLengths g.content.toList g.language))
          ((keptFiles (f :: fs)).map
            (fun g => calculateNestingDepth g.content.toList g.language))
          ((keptFiles (f :: fs)).map
            (fun g => calculateCommentRatio g.content.toList g.language))
          ((keptFiles (f :: fs)).map
            (fun g => calculateComplexity g.content.toList g.language))
          ((keptFiles (f :: fs)).any (fun g => isTestFilePath g.path))
          ((keptFiles (f :: fs)).any
            (fun g => detectTypeHints g.content.toList g.language))) := rfl

/-- C7 (amended): in the cross-file aggregation, the line-length,
function-length and complexity averages are means of only the non-zero
per-file averages, but the nesting-depth average and the comment ratio are
means over ALL analyzed files (their `>= 0` filters keep every per-file
value, since those per-file values are never negative); maxima are taken
over all files, booleans are OR-combined, and rounding is to 1 decimal place
except the comment ratio, which is rounded to 2 decimals. -/
theorem c7_aggregation_means (files : List CodeFile) (hne : files ≠ []) :
    ∃ m, calculateCodeQualityScore files = .ok m
      ∧ m.line_length_avg
          = (if meanOfPositive ((keptFiles files).map fileLineAvg) = 0 then 0
            else pyRound (meanOfPositive ((keptFiles files).map fileLineAvg)) 1)
      ∧ m.function_length_avg
          = (if meanOfPositive ((keptFiles files).map fileFuncAvg) = 0 then 0
            else pyRound (meanOfPositive ((keptFiles files).map fileFuncAvg)) 1)
      ∧ m.complexity_avg
          = (if meanOfPositive ((keptFiles files).map fileCplxAvg) = 0 then 0
            else pyRound (meanOfPositive ((keptFiles files).map fileCplxAvg)) 1)
      ∧ m.nesting_depth_avg
          = (if meanOfAll ((keptFiles files).map fileNestAvg) = 0 then 0
            else pyRound (meanOfAll ((keptFiles files).map fileNestAvg)) 1)
      ∧ m.comment_ratio
          = pyRound (meanOfAll ((keptFiles files).map fileCommentRatio)) 2
      ∧ m.line_length_max = pyMaxQ ((keptFiles files).map
          (fun f => (analyzeLineLengths f.content.toList f.language).line_length_max))
      ∧ m.has_tests = (keptFiles files).any (fun f => isTestFilePath f.path)
      ∧ m.has_type_hints
          = (keptFiles files).any (fun f => detectTypeHints f.content.toList f.language) := by
  match files, hne with
  | f :: fs, _ =>
    rw [calculateCodeQualityScore_cons]
    have hnn1 : ∀ x ∈ (keptFiles (f :: fs)).map fileNestAvg, 0 ≤ x := by
      intro x hx
      rcases List.mem_map.mp hx with ⟨g, _, rfl⟩
      exact nestingDepthAvg_nonneg g.content.toList g.language
    have hnn2 : ∀ x ∈ (keptFiles (f :: fs)).map fileCommentRatio, 0 ≤ x := by
      intro x hx
      rcases List.mem_map.mp hx with ⟨g, _, rfl⟩
      exact commentRatio_nonneg g.content.toList g.language
    refine ⟨_, rfl, ?_, ?_, ?_, ?_, ?_, ?_, ?_, ?_⟩
    · rw [agg_line_length_avg, List.map_map]
      rfl
    · rw [agg_function_length_avg, List.map_map]
      rfl
    · rw [agg_complexity_avg, List.map_map]
      rfl
    · rw [agg_nesting_depth_avg, List.map_map, ← meanOfNonneg_eq_meanOfAll hnn1]
      rfl
    · rw [agg_comment_ratio, ← meanOfNonneg_eq_meanOfAll hnn2]
      rfl
    · rw [agg_line_length_max, List.map_map]
      rfl
    · rfl
    · rfl

/-- A Python file with no comment lines (per-file comment ratio 0). -/
def c7file1 : CodeFile := ⟨"a.py", "Python", "x = 1\ny = 2"⟩

/-- A Python file with 1 comment line out of 2 (per-file comment ratio 0.5). -/
def c7file2 : CodeFile := ⟨"b.py", "Python", "# c\nz = 3"⟩

/-- C7 counterexample: for the pair `c7file1`, `c7file2` the per-file comment
ratios are 0 and 1/2: the aggregated comment ratio computed by the code is
their mean 1/4 (the zero is included), while the mean of only the non-zero
per-file ratios, as the claim states, would be 1/2. -/
theorem c7_counterexample :
    fileCommentRatio c7file1 = 0
    ∧ fileCommentRatio c7file2 = 1/2
    ∧ (calculateCodeQualityScore [c7file1, c7file2]).toOption.map
        (fun m => m.comment_ratio) = some (1/4)
    ∧ pyRound (qmean (([(0 : ℚ), 1/2]).filter (fun x => 0 < x))) 2 = 1/2
    ∧ (1/4 : ℚ) ≠ 1/2 := by
  have k1 : fileCommentRatio c7file1 = pyRound (((0 : ℕ) : ℚ) / ((2 : ℕ) : ℚ)) 2 := rfl
  have k2 : fileCommentRatio c7file2 = pyRound (((1 : ℕ) : ℚ) / ((2 : ℕ) : ℚ)) 2 := rfl
  have e1 : fileCommentRatio c7file1 = 0 := by
    rw [k1]
    norm_num [pyRound, roundHalfEven]
  have e2 : fileCommentRatio c7file2 = 1/2 := by
    rw [k2]
    norm_num [pyRound, roundHalfEven]
  have hlist : (keptFiles [c7file1, c7file2]).map
      (fun g => calculateCommentRatio g.content.toList g.language)
      = [fileCommentRatio c7file1, fileCommentRatio c7file2] := rfl
  refine ⟨e1, e2, ?_, ?_, by norm_num⟩
  · rw [calculateCodeQualityScore_cons]
    simp only [Except.toOption, Option.map]
    rw [agg_comment_ratio, hlist, e1, e2]
    have hm : meanOfNonneg [(0 : ℚ), 1/2] = 1/4 := by
      norm_num [meanOfNonneg, qmean, List.filter]
    rw [hm]
    norm_num [pyRound, roundHalfEven]
  · have hf : ([(0 : ℚ), 1/2]).filter (fun x => 0 < x) = [(1 : ℚ)/2] := by
      norm_num [List.filter]
    rw [hf]
    norm_num [qmean, pyRound, roundHalfEven]

/-- C7 witness for the amended aggregation theorem: applied to the concrete
two-file list. -/
theorem c7_aggregation_means_witness :
    ∃ m, calculateCodeQualityScore [c7file1, c7file2] = .ok m
      ∧ m.comment_ratio
          = pyRound (meanOfAll ((keptFiles [c7file1, c7file2]).map fileCommentRatio)) 2 := by
  obtain ⟨m, h1, _, _, _, _, h6, _, _, _⟩ :=
    c7_aggregation_means [c7file1, c7file2] (by simp)
  exact ⟨m, h1, h6⟩

/-! ### Strategic file selection (`app/services/github_service.py`)

`random.choice` in `_find_core_file` / `_find_test_file` is modelled by an
explicit choice function `pick`; a faithful model of `random.choice` satisfies
`ValidPick` (on a non-empty candidate list it returns one of its elements). -/

def README_PATTERNS : List String :=
  ["README.md", "README.rst", "README.txt", "README",
   "readme.md", "readme.rst", "readme.txt", "readme"]

def ENTRY_POINT_PATTERNS : List (String × List String) :=
  [("Python", ["main.py", "app.py", "__main__.py", "run.py", "manage.py",
    "wsgi.py", "src/main.py", "app/main.py"]),
   ("JavaScript", ["index.js", "app.js", "main.js", "server.js", "src/index.js"]),
   ("TypeScript", ["index.ts", "app.ts", "main.ts", "server.ts",
    "src/index.ts", "src/index.tsx", "src/app.ts"]),
   ("Go", ["main.go", "cmd/main.go"]),
   ("Rust", ["src/main.rs", "src/lib.rs", "main.rs"]),
   ("Java", ["Main.java", "Application.java"]),
   ("C", ["main.c", "src/main.c"]),
   ("C++", ["main.cpp", "src/main.cpp"]),
   ("Ruby", ["main.rb", "app.rb", "config.ru"]),
   ("PHP", ["index.php", "app.php", "public/index.php"])]

def CORE_DIRECTORIES : List String :=
  ["src/", "lib/", "app/", "core/", "pkg/", "internal/"]

def LANGUAGE_EXTENSIONS : List (String × List String) :=
  [("Python", [".py"]),
   ("JavaScript", [".js", ".jsx"]),
   ("TypeScript", [".ts", ".tsx"]),
   ("Go", [".go"]),
   ("Rust", [".rs"]),
   ("Java", [".java"]),
   ("C", [".c", ".h"]),
   ("C++", [".cpp", ".hpp", ".cc", ".hh"]),
   ("Ruby", [".rb"]),
   ("PHP", [".php"])]

def TEST_PATTERNS : List String := ["test_", "_test.", ".test.", ".spec."]

def TEST_DIRECTORIES : List String := ["tests/", "test/", "__tests__/", "spec/"]

def CONFIG_FILES : List (String × List String) :=
  [("Python", ["requirements.txt", "Pipfile", "pyproject.toml", "setup.py", "poetry.lock"]),
   ("JavaScript", ["package.json", "package-lock.json", "yarn.lock"]),
   ("TypeScript", ["package.json", "tsconfig.json"]),
   ("Go", ["go.mod", "go.sum"]),
   ("Rust", ["Cargo.toml", "Cargo.lock"]),
   ("Java", ["pom.xml", "build.gradle"]),
   ("Ruby", ["Gemfile", "Gemfile.lock"]),
   ("PHP", ["composer.json", "composer.lock"])]

def EXCLUDE_PATTERNS : List String :=
  ["node_modules/", "vendor/", "dist/", "build/", ".min.js", ".bundle.js"]

/-- Python dict lookup `table.get(key)` on an ordered association list. -/
def lookupTable {α : Type} (t : List (String × α)) (k : String) : Option α :=
  (t.find? (fun e => e.1 = k)).map (fun e => e.2)

/-- Python `s.endswith(suffix)`. -/
def strEndsWith (s suffix : String) : Bool :=
  suffix.toList.isSuffixOf s.toList

/-- Python `s.startswith(p)`. -/
def strStartsWith (s p : String) : Bool :=
  p.toList.isPrefixOf s.toList

/-- `file_path.split("/")[-1]`: the characters after the last slash. -/
def lastComponent (fp : String) : String :=
  String.mk (fp.toList.foldl (fun acc c => if c = '/' then [] else acc ++ [c]) [])

/-- The per-(path, pattern) test of `_find_first_match`:
lowercased full-path equality, or a case-sensitive `endswith`. -/
def matchesPattern (filePath pattern : String) : Bool :=
  strLower filePath = strLower pattern || strEndsWith filePath pattern

/-- `_find_first_match`: iterates pattern-major (`for pattern: for file_path:`),
returning the first tree path matching the first pattern that has any match. -/
def findFirstMatch (fileTree : List String) (patterns : List String) : Option String :=
  patterns.findSome? (fun pattern =>
    fileTree.find? (fun filePath => matchesPattern filePath pattern))

/-- `_find_entry_point`: `None` when the language is falsy or not in the
table; otherwise pattern-major search with exact path equality or
`pattern.endswith(file_path.split("/")[-1])`. -/
def findEntryPoint (fileTree : List String) (language : Option String) : Option String :=
  match language with
  | none => none
  | some lang =>
    if lang = "" then none
    else
      match lookupTable ENTRY_POINT_PATTERNS lang with
      | none => none
      | some patterns =>
        patterns.findSome? (fun pattern =>
          fileTree.find? (fun filePath =>
            filePath = pattern || strEndsWith pattern (lastComponent filePath)))

/-- The candidate list of `_find_core_file`: core-directory files with the
language's extension, excluding test-pattern and excluded-pattern matches;
when empty, root-level files under the same conditions. -/
def coreFileCandidates (fileTree : List String) (extensions : List String) : List String :=
  let coreFiles := fileTree.filter (fun filePath =>
    CORE_DIRECTORIES.any (fun d => strStartsWith filePath d)
    && extensions.any (fun ext => strEndsWith filePath ext)
    && !(TEST_PATTERNS.any (fun p => strContains filePath p))
    && !(EXCLUDE_PATTERNS.any (fun p => strContains filePath p)))
  if coreFiles.isEmpty then
    fileTree.filter (fun filePath =>
      !(strContains filePath "/")
      && extensions.any (fun ext => strEndsWith filePath ext)
      && !(TEST_PATTERNS.any (fun p => strContains filePath p))
      && !(EXCLUDE_PATTERNS.any (fun p => strContains filePath p)))
  else coreFiles

/-- `_find_core_file`: `random.choice` over the candidates (modelled by
`pick`), `None` when the language is falsy/unknown or no candidate exists. -/
def findCoreFile (pick : List String → Option String) (fileTree : List String)
    (language : Option String) : Option String :=
  match language with
  | none => none
  | some lang =>
    if lang = "" then none
    else
      match lookupTable LANGUAGE_EXTENSIONS lang with
      | none => none
      | some extensions =>
        let candidates := coreFileCandidates fileTree extensions
        if candidates.isEmpty then none else pick candidates

/-- The candidate list of `_find_test_file`: paths containing a test
directory or a test naming pattern as a substring. -/
def testFileCandidates (fileTree : List String) : List String :=
  fileTree.filter (fun filePath =>
    TEST_DIRECTORIES.any (fun d => strContains filePath d)
    || TEST_PATTERNS.any (fun p => strContains filePath p))

/-- `_find_test_file` (its `language` argument is unused by the source too). -/
def findTestFile (pick : List String → Option String) (fileTree : List String)
    (language : Option String) : Option String :=
  let candidates := testFileCandidates fileTree
  if candidates.isEmpty then none else pick candidates

/-- `_find_config_file`. -/
def findConfigFile (fileTree : List String) (language : Option String) : Option String :=
  match language with
  | none => none
  | some lang =>
    if lang = "" then none
    else
      match lookupTable CONFIG_FILES lang with
      | none => none
      | some patterns =>
        patterns.findSome? (fun pattern =>
          fileTree.find? (fun filePath =>
            filePath = pattern || strEndsWith filePath pattern))

/-- One `if candidate and candidate not in selected_files: append` step of
`select_strategic_files` (Python string falsiness included). -/
def stepAdd (s : List String) (o : Option String) : List String :=
  match o with
  | some x => if x = "" then s else if x ∈ s then s else s ++ [x]
  | none => s

/-- Priority 1 of `select_strategic_files`: `if readme: append(readme)`
starting from the empty selection. -/
def readmeStep (fileTree : List String) : List String :=
  match findFirstMatch fileTree README_PATTERNS with
  | some readme => if readme = "" then [] else [readme]
  | none => []

/-- One `if len(selected_files) < 5:` block of `select_strategic_files`. -/
def budgetStep (s : List String) (o : Option String) : List String :=
  if s.length < 5 then stepAdd s o else s

/-- `select_strategic_files(file_tree, language=None)`: up to 5 files by
fixed priority (README, entry point, core file, test file, config file),
then `selected_files[:5]`. -/
def selectStrategicFiles (pick : List String → Option String)
    (fileTree : List String) (language : Option String) : List String :=
  if fileTree.isEmpty then []
  else
    (budgetStep (budgetStep (budgetStep (budgetStep (readmeStep fileTree)
      (findEntryPoint fileTree language)) (findCoreFile pick fileTree language))
      (findTestFile pick fileTree language)) (findConfigFile fileTree language)).take 5

/-- A faithful model of `random.choice`: on a non-empty list it returns one
of its elements. -/
def ValidPick (pick : List String → Option String) : Prop :=
  ∀ l, l ≠ [] → ∃ x, pick l = some x ∧ x ∈ l

/-- A language is unknown to the selection tables when it is absent (`None`)
or missing from every per-language table. -/
def unknownLanguage (language : Option String) : Bool :=
  match language with
  | none => true
  | some lang =>
    (lookupTable ENTRY_POINT_PATTERNS lang).isNone
    && (lookupTable LANGUAGE_EXTENSIONS lang).isNone
    && (lookupTable CONFIG_FILES lang).isNone

/-- `select_files_node` from `app/langgraph/nodes.py`: fetches the file tree
(external input here) and calls `select_strategic_files(file_tree)` with no
language argument, so the language defaults to `None`. -/
def selectFilesNode (pick : List String → Option String)
    (fileTree : List String) : List String :=
  selectStrategicFiles pick fileTree none

/-! ### File-content fetching (`fetch_file_contents`,
`app/services/github_service.py`) -/

/-- `MAX_FILE_SIZE = 50_000` bytes. -/
def MAX_FILE_SIZE : ℕ := 50000

/-- Decode a single UTF-8 scalar from the head of a byte list, returning the
character and the remaining bytes; `none` on an invalid or empty head. -/
def utf8DecodeOne : List ℕ → Option (Char × List ℕ)
  | [] => none
  | b :: rest =>
    if b < 128 then some (Char.ofNat b, rest)
    else if 194 ≤ b ∧ b ≤ 223 then
      match rest with
      | c1 :: rest2 =>
        if 128 ≤ c1 ∧ c1 ≤ 191 then
          some (Char.ofNat ((b - 192) * 64 + (c1 - 128)), rest2)
        else none
      | [] => none
    else if 224 ≤ b ∧ b ≤ 239 then
      match rest with
      | c1 :: c2 :: rest3 =>
        if ((if b = 224 then 160 else 128) ≤ c1 ∧ c1 ≤ (if b = 237 then 159 else 191))
            ∧ (128 ≤ c2 ∧ c2 ≤ 191) then
          some (Char.ofNat ((b - 224) * 4096 + (c1 - 128) * 64 + (c2 - 128)), rest3)
        else none
      | _ => none
    else if 240 ≤ b ∧ b ≤ 244 then
      match rest with
      | c1 :: c2 :: c3 :: rest4 =>
        if ((if b = 240 then 144 else 128) ≤ c1 ∧ c1 ≤ (if b = 244 then 143 else 191))
            ∧ (128 ≤ c2 ∧ c2 ≤ 191) ∧ (128 ≤ c3 ∧ c3 ≤ 191) then
          some (Char.ofNat ((b - 240) * 262144 + (c1 - 128) * 4096
            + (c2 - 128) * 64 + (c3 - 128)), rest4)
        else none
      | _ => none
    else none

/-- Iterated decoding; the fuel is an upper bound on the number of characters
(one byte consumed per character at minimum, so the byte count suffices). -/
def utf8DecodeGo : ℕ → List ℕ → Option (List Char)
  | _, [] => some []
  | 0, _ :: _ => none
  | fuel + 1, b :: rest =>
    match utf8DecodeOne (b :: rest) with
    | none => none
    | some (c, rem) => (utf8DecodeGo fuel rem).map (fun cs => c :: cs)

/-- Strict UTF-8 decoding of a byte list (Python `bytes.decode("utf-8")`):
`none` exactly when the bytes are not valid UTF-8. -/
def utf8Decode (bytes : List ℕ) : Option (List Char) :=
  utf8DecodeGo bytes.length bytes

/-- `fetch_file_contents`, with the repository modelled as a partial map from
path to raw bytes (`none` for a missing file / fetch error): per file, a 404
or error skips the file, content over `MAX_FILE_SIZE` bytes is truncated to
the first `MAX_FILE_SIZE` bytes, and undecodable (binary) content skips the
file; no per-file failure aborts the whole map. -/
def fetchFileContents (remote : String → Option (List ℕ))
    (filePaths : List String) : List (String × List Char) :=
  filePaths.foldl (fun fileContents filePath =>
    match remote filePath with
    | none => fileContents
    | some rawContent =>
      let truncated := if MAX_FILE_SIZE < rawContent.length
        then rawContent.take MAX_FILE_SIZE else rawContent
      match utf8Decode truncated with
      | none => fileContents
      | some textContent => fileContents ++ [(filePath, textContent)]) []

/-! ### Claims C3, C9, C10: selection properties -/

lemma stepAdd_nodup {s : List String} {o : Option String} (h : s.Nodup) :
    (stepAdd s o).Nodup := by
  cases o with
  | none => exact h
  | some x =>
    simp only [stepAdd]
    split_ifs with h1 h2
    · exact h
    · exact h
    · rw [List.nodup_append]
      refine ⟨h, List.nodup_singleton x, ?_⟩
      intro a ha hb
      rw [List.mem_singleton] at hb
      subst hb
      exact h2 ha

lemma mem_stepAdd {s : List String} {o : Option String} {x : String}
    (h : x ∈ stepAdd s o) : x ∈ s ∨ o = some x := by
  cases o with
  | none => exact Or.inl h
  | some a =>
    simp only [stepAdd] at h
    split_ifs at h with h1 h2
    · exact Or.inl h
    · exact Or.inl h
    · rcases List.mem_append.mp h with h3 | h3
      · exact Or.inl h3
      · rw [List.mem_singleton] at h3
        subst h3
        exact Or.inr rfl

lemma budgetStep_nodup {s : List String} {o : Option String} (h : s.Nodup) :
    (budgetStep s o).Nodup := by
  unfold budgetStep
  split
  · exact stepAdd_nodup h
  · exact h

lemma mem_budgetStep {s : List String} {o : Option String} {x : String}
    (h : x ∈ budgetStep s o) : x ∈ s ∨ o = some x := by
  unfold budgetStep at h
  split at h
  · exact mem_stepAdd h
  · exact Or.inl h

lemma readmeStep_nodup (fileTree : List String) : (readmeStep fileTree).Nodup := by
  unfold readmeStep
  split
  · split
    · exact List.nodup_nil
    · exact List.nodup_singleton _
  · exact List.nodup_nil

lemma mem_readmeStep {fileTree : List String} {x : String}
    (h : x ∈ readmeStep fileTree) :
    findFirstMatch fileTree README_PATTERNS = some x := by
  unfold readmeStep at h
  split at h
  · rename_i readme heq
    split at h
    · exact absurd h (List.not_mem_nil x)
    · rw [List.mem_singleton] at h
      subst h
      exact heq
  · exact absurd h (List.not_mem_nil x)

lemma select_nodup (pick : List String → Option String)
    (fileTree : List String) (language : Option String) :
    (selectStrategicFiles pick fileTree language).Nodup := by
  unfold selectStrategicFiles
  split
  · exact List.nodup_nil
  · exact ((List.take_sublist _ _).nodup
      (budgetStep_nodup (budgetStep_nodup (budgetStep_nodup
        (budgetStep_nodup (readmeStep_nodup fileTree))))))

lemma select_length_le (pick : List String → Option String)
    (fileTree : List String) (language : Option String) :
    (selectStrategicFiles pick fileTree language).length ≤ 5 := by
  unfold selectStrategicFiles
  split
  · simp
  · exact le_trans (List.length_take_le _ _) (le_refl 5)

lemma mem_select (pick : List String → Option String)
    (fileTree : List String) (language : Option String) {x : String}
    (h : x ∈ selectStrategicFiles pick fileTree language) :
    findFirstMatch fileTree README_PATTERNS = some x
    ∨ findEntryPoint fileTree language = some x
    ∨ findCoreFile pick fileTree language = some x
    ∨ findTestFile pick fileTree language = some x
    ∨ findConfigFile fileTree language = some x := by
  unfold selectStrategicFiles at h
  split at h
  · exact absurd h (List.not_mem_nil x)
  · have h5 := (List.take_sublist _ _).subset h
    rcases mem_budgetStep h5 with h4 | hcfg
    · rcases mem_budgetStep h4 with h3 | htst
      · rcases mem_budgetStep h3 with h2 | hcore
        · rcases mem_budgetStep h2 with h1 | hentry
          · exact Or.inl (mem_readmeStep h1)
          · exact Or.inr (Or.inl hentry)
        · exact Or.inr (Or.inr (Or.inl hcore))
      · exact Or.inr (Or.inr (Or.inr (Or.inl htst)))
    · exact Or.inr (Or.inr (Or.inr (Or.inr hcfg)))

lemma findEntryPoint_eq_none_of_unknown {fileTree : List String}
    {language : Option String} (h : unknownLanguage language = true) :
    findEntryPoint fileTree language = none := by
  cases language with
  | none => rfl
  | some lang =>
    simp only [unknownLanguage, Bool.and_eq_true, Option.isNone_iff_eq_none] at h
    simp only [findEntryPoint, h.1.1]
    split <;> rfl

lemma findCoreFile_eq_none_of_unknown {pick : List String → Option String}
    {fileTree : List String} {language : Option String}
    (h : unknownLanguage language = true) :
    findCoreFile pick fileTree language = none := by
  cases language with
  | none => rfl
  | some lang =>
    simp only [unknownLanguage, Bool.and_eq_true, Option.isNone_iff_eq_none] at h
    simp only [findCoreFile, h.1.2]
    split <;> rfl

lemma findConfigFile_eq_none_of_unknown {fileTree : List String}
    {language : Option String} (h : unknownLanguage language = true) :
    findConfigFile fileTree language = none := by
  cases language with
  | none => rfl
  | some lang =>
    simp only [unknownLanguage, Bool.and_eq_true, Option.isNone_iff_eq_none] at h
    simp only [findConfigFile, h.2]
    split <;> rfl

lemma findTestFile_mem {pick : List String → Option String}
    {fileTree : List String} {language : Option String} {x : String}
    (hpick : ValidPick pick) (h : findTestFile pick fileTree language = some x) :
    x ∈ testFileCandidates fileTree := by
  simp only [findTestFile] at h
  split at h
  · exact absurd h (by simp)
  · rename_i hne
    obtain ⟨y, hy, hmem⟩ := hpick (testFileCandidates fileTree)
      (by simpa [List.isEmpty_iff] using hne)
    rw [hy] at h
    injection h with h
    subst h
    exact hmem

/-- The deterministic pick used for witnesses: always the first candidate. -/
def pickFirst : List String → Option String := List.head?

lemma pickFirst_valid : ValidPick pickFirst := by
  intro l hl
  cases l with
  | nil => exact absurd rfl hl
  | cons a t => exact ⟨a, rfl, List.mem_cons_self a t⟩

/-- C3: file selection returns at most 5 paths with no duplicates; an empty
file tree yields an empty result; for an unknown language the entry-point,
core-file and config-file steps are skipped, so only the README match and
test candidates can be selected; and on the spec example tree with language
Python the selection is exactly the four listed files. -/
theorem c3_file_selection (pick : List String → Option String)
    (hpick : ValidPick pick) (fileTree : List String) (language : Option String) :
    (selectStrategicFiles pick fileTree language).length ≤ 5
    ∧ (selectStrategicFiles pick fileTree language).Nodup
    ∧ (fileTree = [] → selectStrategicFiles pick fileTree language = [])
    ∧ (unknownLanguage language = true →
        findEntryPoint fileTree language = none
        ∧ findCoreFile pick fileTree language = none
        ∧ findConfigFile fileTree language = none
        ∧ ∀ f ∈ selectStrategicFiles pick fileTree language,
            findFirstMatch fileTree README_PATTERNS = some f
            ∨ f ∈ testFileCandidates fileTree)
    ∧ (fileTree = ["README.md", "main.py", "src/utils.py", "tests/test_main.py"] →
        language = some "Python" →
        selectStrategicFiles pick fileTree language
          = ["README.md", "main.py", "src/utils.py", "tests/test_main.py"]) := by
  refine ⟨select_length_le pick fileTree language, select_nodup pick fileTree language,
    ?_, ?_, ?_⟩
  · intro h
    subst h
    rfl
  · intro hunk
    refine ⟨findEntryPoint_eq_none_of_unknown hunk,
      findCoreFile_eq_none_of_unknown hunk,
      findConfigFile_eq_none_of_unknown hunk, ?_⟩
    intro f hf
    rcases mem_select pick fileTree language hf with h1 | h2 | h3 | h4 | h5
    · exact Or.inl h1
    · rw [findEntryPoint_eq_none_of_unknown hunk] at h2
      exact Option.noConfusion h2
    · rw [findCoreFile_eq_none_of_unknown hunk] at h3
      exact Option.noConfusion h3
    · exact Or.inr (findTestFile_mem hpick h4)
    · rw [findConfigFile_eq_none_of_unknown hunk] at h5
      exact Option.noConfusion h5
  · intro ht hl
    subst ht
    subst hl
    obtain ⟨y1, hy1, hm1⟩ := hpick ["src/utils.py"] (by simp)
    obtain ⟨y2, hy2, hm2⟩ := hpick ["tests/test_main.py"] (by simp)
    have e1 : y1 = "src/utils.py" := by simpa using hm1
    have e2 : y2 = "tests/test_main.py" := by simpa using hm2
    subst e1
    subst e2
    unfold selectStrategicFiles
    rw [show findCoreFile pick
        ["README.md", "main.py", "src/utils.py", "tests/test_main.py"]
        (some "Python") = pick ["src/utils.py"] from rfl, hy1,
      show findTestFile pick
        ["README.md", "main.py", "src/utils.py", "tests/test_main.py"]
        (some "Python") = pick ["tests/test_main.py"] from rfl, hy2]
    decide

/-- C3 witness: the theorem applied at the deterministic first-candidate
pick on the spec example tree. -/
theorem c3_file_selection_witness :
    (selectStrategicFiles pickFirst
        ["README.md", "main.py", "src/utils.py", "tests/test_main.py"]
        (some "Python")).length ≤ 5
    ∧ (selectStrategicFiles pickFirst
        ["README.md", "main.py", "src/utils.py", "tests/test_main.py"]
        (some "Python")).Nodup
    ∧ selectStrategicFiles pickFirst
        ["README.md", "main.py", "src/utils.py", "tests/test_main.py"]
        (some "Python")
        = ["README.md", "main.py", "src/utils.py", "tests/test_main.py"] :=
  ⟨(c3_file_selection pickFirst pickFirst_valid _ _).1,
   (c3_file_selection pickFirst pickFirst_valid _ _).2.1,
   (c3_file_selection pickFirst pickFirst_valid
      ["README.md", "main.py", "src/utils.py", "tests/test_main.py"]
      (some "Python")).2.2.2.2 rfl rfl⟩

/-- C10: the pipeline node `select_files_node` calls the selector with no
language argument, so selection runs with `language = None`: the entry-point,
core-file and config-file steps all return `None`, and every selected file is
either the README match or a test candidate, whatever the repository's actual
primary language was. -/
theorem c10_node_selects_without_language (pick : List String → Option String)
    (hpick : ValidPick pick) (fileTree : List String) :
    selectFilesNode pick fileTree = selectStrategicFiles pick fileTree none
    ∧ findEntryPoint fileTree none = none
    ∧ findCoreFile pick fileTree none = none
    ∧ findConfigFile fileTree none = none
    ∧ ∀ f ∈ selectFilesNode pick fileTree,
        findFirstMatch fileTree README_PATTERNS = some f
        ∨ f ∈ testFileCandidates fileTree := by
  refine ⟨rfl, rfl, rfl, rfl, ?_⟩
  intro f hf
  rcases mem_select pick fileTree none hf with h1 | h2 | h3 | h4 | h5
  · exact Or.inl h1
  · exact Option.noConfusion h2
  · exact Option.noConfusion h3
  · exact Or.inr (findTestFile_mem hpick h4)
  · exact Option.noConfusion h5

/-- C10 witness: the node on the spec example tree (which has a Python entry
point and core file available): the selection runs with no language, the
entry/core/config steps return nothing, and the concrete selected file
`README.md` is the README match. -/
theorem c10_node_selects_without_language_witness :
    selectFilesNode pickFirst ["README.md", "main.py", "src/utils.py", "tests/test_main.py"]
        = selectStrategicFiles pickFirst
            ["README.md", "main.py", "src/utils.py", "tests/test_main.py"] none
    ∧ findEntryPoint ["README.md", "main.py", "src/utils.py", "tests/test_main.py"] none = none
    ∧ findCoreFile pickFirst
        ["README.md", "main.py", "src/utils.py", "tests/test_main.py"] none = none
    ∧ findConfigFile ["README.md", "main.py", "src/utils.py", "tests/test_main.py"] none = none
    ∧ (findFirstMatch ["README.md", "main.py", "src/utils.py", "tests/test_main.py"]
          README_PATTERNS = some "README.md"
        ∨ "README.md" ∈ testFileCandidates
            ["README.md", "main.py", "src/utils.py", "tests/test_main.py"]) :=
  ⟨(c10_node_selects_without_language pickFirst pickFirst_valid
      ["README.md", "main.py", "src/utils.py", "tests/test_main.py"]).1,
   (c10_node_selects_without_language pickFirst pickFirst_valid
      ["README.md", "main.py", "src/utils.py", "tests/test_main.py"]).2.1,
   (c10_node_selects_without_language pickFirst pickFirst_valid
      ["README.md", "main.py", "src/utils.py", "tests/test_main.py"]).2.2.1,
   (c10_node_selects_without_language pickFirst pickFirst_valid
      ["README.md", "main.py", "src/utils.py", "tests/test_main.py"]).2.2.2.1,
   (c10_node_selects_without_language pickFirst pickFirst_valid
      ["README.md", "main.py", "src/utils.py", "tests/test_main.py"]).2.2.2.2
      "README.md" (by decide)⟩

/-! ### Claim C9: the documentation slot -/

lemma findSome_eq_of_find_pattern {α : Type} (g : String → Option α) :
    ∀ (patterns : List String) (pat : String),
      patterns.find? (fun p => (g p).isSome) = some pat →
      patterns.findSome? g = g pat := by
  intro patterns
  induction patterns with
  | nil => intro pat h; simp at h
  | cons p ps ih =>
    intro pat h
    rw [List.findSome?_cons]
    cases hg : g p with
    | some a =>
      have hfind : List.find? (fun q => (g q).isSome) (p :: ps) = some p :=
        List.find?_cons_of_pos ps (by simp [hg])
      rw [hfind] at h
      injection h with h
      subst h
      exact hg.symm
    | none =>
      have hfind : List.find? (fun q => (g q).isSome) (p :: ps)
          = List.find? (fun q => (g q).isSome) ps :=
        List.find?_cons_of_neg ps (by simp [hg])
      rw [hfind] at h
      exact ih pat h

/-- C9 (amended): the documentation slot iterates the README variant list
pattern-major; for `pat` the first variant that any tree path matches (full
path lowercased equality, or a case-sensitive `endswith` — not a filename
match), the selected documentation file is the earliest path in tree order
matching that particular variant. -/
theorem c9_documentation_slot (fileTree : List String) (pat : String)
    (h : README_PATTERNS.find?
        (fun p => (fileTree.find? (fun fp => matchesPattern fp p)).isSome) = some pat) :
    findFirstMatch fileTree README_PATTERNS
      = fileTree.find? (fun fp => matchesPattern fp pat) :=
  findSome_eq_of_find_pattern _ README_PATTERNS pat h

/-- The claim's documentation predicate: the path's FILENAME case-insensitively
equals one of the README variants. -/
def filenameMatchesReadme (fp : String) : Bool :=
  README_PATTERNS.any (fun pat => strLower (lastComponent fp) = strLower pat)

/-- C9 counterexample: in the tree `["README.rst", "docs/README.md"]` the
first path whose filename matches a README variant is `"README.rst"`, but the
code selects `"docs/README.md"` (pattern-major iteration: the variant
`README.md` is tried against every path before `README.rst` is). -/
theorem c9_counterexample :
    findFirstMatch ["README.rst", "docs/README.md"] README_PATTERNS
      = some "docs/README.md"
    ∧ (["README.rst", "docs/README.md"] : List String).find? filenameMatchesReadme
      = some "README.rst"
    ∧ ("docs/README.md" : String) ≠ "README.rst" := by
  refine ⟨by decide, by decide, by decide⟩

/-- C9 witness: the amended description applied to the counterexample tree,
whose first matching variant is `README.md`. -/
theorem c9_documentation_slot_witness :
    findFirstMatch ["README.rst", "docs/README.md"] README_PATTERNS
      = (["README.rst", "docs/README.md"] : List String).find?
          (fun fp => matchesPattern fp "README.md") :=
  c9_documentation_slot ["README.rst", "docs/README.md"] "README.md" (by decide)

/-! ### Claim C6: per-file fetch policy -/

/-- The per-file body of the `fetch_file_contents` loop. -/
def fetchStep (remote : String → Option (List ℕ))
    (fileContents : List (String × List Char)) (filePath : String) :
    List (String × List Char) :=
  match remote filePath with
  | none => fileContents
  | some rawContent =>
    match utf8Decode (if MAX_FILE_SIZE < rawContent.length
        then rawContent.take MAX_FILE_SIZE else rawContent) with
    | none => fileContents
    | some textContent => fileContents ++ [(filePath, textContent)]

lemma fetchFileContents_eq_foldl (remote : String → Option (List ℕ))
    (filePaths : List String) :
    fetchFileContents remote filePaths = filePaths.foldl (fetchStep remote) [] := rfl

lemma mem_fetchStep {remote : String → Option (List ℕ)}
    {acc : List (String × List Char)} {q p : String} {s : List Char}
    (h : (p, s) ∈ fetchStep remote acc q) :
    (p, s) ∈ acc
    ∨ ∃ raw, remote p = some raw
        ∧ utf8Decode (if MAX_FILE_SIZE < raw.length
            then raw.take MAX_FILE_SIZE else raw) = some s := by
  unfold fetchStep at h
  split at h
  · exact Or.inl h
  · rename_i raw hraw
    split at h
    · exact Or.inl h
    · rename_i text htext
      rcases List.mem_append.mp h with h1 | h1
      · exact Or.inl h1
      · rw [List.mem_singleton] at h1
        injection h1 with h1 h2
        subst h1
        subst h2
        exact Or.inr ⟨raw, hraw, htext⟩

lemma mem_fetch_foldl (remote : String → Option (List ℕ)) :
    ∀ (filePaths : List String) (acc : List (String × List Char))
      (p : String) (s : List Char),
      (p, s) ∈ filePaths.foldl (fetchStep remote) acc →
      (p, s) ∈ acc
      ∨ ∃ raw, remote p = some raw
          ∧ utf8Decode (if MAX_FILE_SIZE < raw.length
              then raw.take MAX_FILE_SIZE else raw) = some s := by
  intro filePaths
  induction filePaths with
  | nil => intro acc p s h; exact Or.inl h
  | cons q qs ih =>
    intro acc p s h
    rw [List.foldl_cons] at h
    rcases ih (fetchStep remote acc q) p s h with h1 | h1
    · exact mem_fetchStep h1
    · exact Or.inr h1

lemma utf8DecodeGo_replicate_ascii (b : ℕ) (hb : b < 128) :
    ∀ (n fuel : ℕ), n ≤ fuel →
      utf8DecodeGo fuel (List.replicate n b)
        = some (List.replicate n (Char.ofNat b)) := by
  intro n
  induction n with
  | zero => intro fuel _; cases fuel <;> rfl
  | succ k ih =>
    intro fuel hfuel
    cases fuel with
    | zero => omega
    | succ f =>
      rw [List.replicate_succ, List.replicate_succ, utf8DecodeGo]
      have h1 : utf8DecodeOne (b :: List.replicate k b)
          = some (Char.ofNat b, List.replicate k b) := by
        rw [utf8DecodeOne.eq_def]
        dsimp only
        rw [if_pos hb]
      rw [h1]
      dsimp only
      rw [ih f (by omega)]
      rfl

lemma utf8Decode_replicate_ascii (n : ℕ) (b : ℕ) (hb : b < 128) :
    utf8Decode (List.replicate n b) = some (List.replicate n (Char.ofNat b)) := by
  unfold utf8Decode
  rw [List.length_replicate]
  exact utf8DecodeGo_replicate_ascii b hb n n le_rfl

lemma fetchStep_decoded {remote : String → Option (List ℕ)}
    {acc : List (String × List Char)} {path : String} {raw : List ℕ}
    {text : List Char} (hraw : remote path = some raw)
    (hdec : utf8Decode (if MAX_FILE_SIZE < raw.length
        then raw.take MAX_FILE_SIZE else raw) = some text) :
    fetchStep remote acc path = acc ++ [(path, text)] := by
  unfold fetchStep
  rw [hraw]
  dsimp only
  rw [hdec]

/-- C6: file-content fetching never fails the whole map for one file — every
returned entry comes from a path whose remote bytes decoded successfully after
truncation to the first 50,000 bytes; missing (404) files and binary
(non-UTF-8) files are dropped; and a 60,000-byte file of a single repeated
character yields exactly 50,000 characters of content. -/
theorem c6_fetch_policy :
    (∀ (remote : String → Option (List ℕ)) (filePaths : List String)
        (p : String) (s : List Char),
        (p, s) ∈ fetchFileContents remote filePaths →
          ∃ raw, remote p = some raw
            ∧ utf8Decode (if MAX_FILE_SIZE < raw.length
                then raw.take MAX_FILE_SIZE else raw) = some s)
    ∧ fetchFileContents (fun _ => none) ["missing.txt"] = []
    ∧ fetchFileContents (fun _ => some [255]) ["binary.dat"] = []
    ∧ fetchFileContents (fun _ => some (List.replicate 60000 97)) ["big.txt"]
        = [("big.txt", List.replicate 50000 'a')]
    ∧ (List.replicate 50000 'a').length = 50000 := by
  refine ⟨?_, rfl, rfl, ?_, by rw [List.length_replicate]⟩
  · intro remote filePaths p s h
    rw [fetchFileContents_eq_foldl] at h
    rcases mem_fetch_foldl remote filePaths [] p s h with h1 | h1
    · exact absurd h1 (List.not_mem_nil _)
    · exact h1
  · have hlen : MAX_FILE_SIZE < (List.replicate (60000 : ℕ) (97 : ℕ)).length := by
      rw [List.length_replicate]
      norm_num [MAX_FILE_SIZE]
    have htrunc : (if MAX_FILE_SIZE < (List.replicate (60000 : ℕ) (97 : ℕ)).length
        then (List.replicate (60000 : ℕ) (97 : ℕ)).take MAX_FILE_SIZE
        else List.replicate 60000 97) = List.replicate 50000 97 := by
      rw [if_pos hlen, List.take_replicate]
      norm_num [MAX_FILE_SIZE]
    have hchar : Char.ofNat 97 = 'a' := rfl
    have hdec2 : utf8Decode (if MAX_FILE_SIZE < (List.replicate (60000 : ℕ) (97 : ℕ)).length
        then (List.replicate (60000 : ℕ) (97 : ℕ)).take MAX_FILE_SIZE
        else List.replicate 60000 97) = some (List.replicate 50000 'a') := by
      rw [htrunc, utf8Decode_replicate_ascii 50000 97 (by norm_num), hchar]
    rw [fetchFileContents_eq_foldl, List.foldl_cons, List.foldl_nil]
    exact fetchStep_decoded rfl hdec2

/-- C6 witness: the membership property applied to the 60,000-byte repeated
character file. -/
theorem c6_fetch_policy_witness :
    ∃ raw, (fun (_ : String) => some (List.replicate 60000 (97 : ℕ))) "big.txt" = some raw
      ∧ utf8Decode (if MAX_FILE_SIZE < raw.length
          then raw.take MAX_FILE_SIZE else raw)
        = some (List.replicate 50000 'a') := by
  apply c6_fetch_policy.1 (fun _ => some (List.replicate 60000 97)) ["big.txt"]
    "big.txt" (List.replicate 50000 'a')
  rw [c6_fetch_policy.2.2.2.1]
  exact List.mem_singleton.mpr rfl

end RepoToCat
